import Mathlib

/-!
Shallow embedding of the HEIC image-converter web app
(`src/app/api/convert/route.ts`, `src/components/ImageConverter.tsx`,
`src/components/UploadSection.tsx`, `src/components/ConversionOptions.tsx`).

Modelling conventions:
* Buffers are modelled by their byte length (`Buffer := Nat`); the code only
  ever inspects `buffer.length`.
* JavaScript float arithmetic on sizes (`length / 1024`, `target * 1.05`, ...)
  is idealised over `ℚ` with the literal constants of the source.
* The sharp / heic-convert primitives are external library calls; they are
  collected in an `Env` record of abstract functions (an encoder maps an
  image and a quality to a byte length or a thrown error, modelled by
  `Except Unit`).  Sharp pipelines are immutable values here: `clone()` is
  the identity on values, a `resize` produces a new abstract image.
* `parseInt` of a form value is modelled by the parsed `Option Int`
  (`none` models `NaN`, i.e. a missing or non-numeric field); JavaScript
  truthiness of numbers (`0`/`NaN` falsy) and strings (`""` falsy) is
  modelled explicitly.
* Each encode attempt performed by `compressToTargetSize` is recorded in a
  `Probe` trace returned alongside the result, so that properties about
  "attempts" can be stated; the trace is instrumentation and does not
  influence the computed result.
-/

namespace HeicConv

/-- Decidable equality for `Except` (componentwise). -/
def exceptDecEq {E A : Type} [DecidableEq E] [DecidableEq A] : DecidableEq (Except E A) :=
  fun x y =>
    match x, y with
    | .ok u, .ok v => if h : u = v then .isTrue (by rw [h]) else .isFalse (by simp [h])
    | .error u, .error v => if h : u = v then .isTrue (by rw [h]) else .isFalse (by simp [h])
    | .ok _, .error _ => .isFalse (by simp)
    | .error _, .ok _ => .isFalse (by simp)

instance {E A : Type} [DecidableEq E] [DecidableEq A] : DecidableEq (Except E A) := exceptDecEq

/-- A buffer, identified with its byte length. -/
abbrev Buffer := Nat

/-- `buffer.length / 1024`: the size of a buffer in (binary) kilobytes. -/
def sizeKB (b : Buffer) : ℚ := (b : ℚ) / 1024

theorem sizeKB_nonneg (b : Buffer) : 0 ≤ sizeKB b := by
  unfold sizeKB; positivity

/-- Which call site of `getOutputBuffer` inside `compressToTargetSize`
produced an encode attempt: the initial max-quality probe (route.ts:43),
a binary-search iteration (route.ts:59), or the final minimum-quality
attempt (route.ts:93). -/
inductive ProbeKind
  | initial
  | search
  | lastResort
  deriving DecidableEq

/-- One recorded encode attempt: which call site, the quality passed, and
the encoder's outcome (byte length, or a thrown error). -/
structure Probe where
  kind : ProbeKind
  quality : Int
  outcome : Except Unit Buffer
  deriving DecidableEq

/-- The data carried by the `throw` at route.ts:104: the message interpolates
the target and the final value of the `lastSize` variable (`none` models its
initial value `Infinity`). -/
structure CompressError where
  targetSizeKB : Int
  lastSizeKB : Option ℚ
  deriving DecidableEq

/-- The mutable locals of `compressToTargetSize`'s while loop (route.ts:27-32).
`lastValidQuality` is only ever logged, so it is omitted. -/
structure LoopState where
  low : Int
  high : Int
  lastValidBuffer : Option Buffer
  lastSize : Option ℚ

/-- Prepend a probe to the trace component of a loop result. -/
def consTrace (p : Probe) (r : Option Buffer × LoopState × List Probe) :
    Option Buffer × LoopState × List Probe :=
  (r.1, r.2.1, p :: r.2.2)

/-- The while loop of `compressToTargetSize` (route.ts:55-83), with the
per-format encoder abstracted to `enc : quality → length-or-error`.  The
fuel is `maxAttempts - attempts`; the loop also stops when `low > high`.
Returns the early-returned buffer (if the ±5% band was hit), the final
locals, and the trace of attempts. -/
def searchLoop (enc : Int → Except Unit Buffer) (targetSizeKB : Int) :
    Nat → LoopState → Option Buffer × LoopState × List Probe
  | 0, _st => (none, _st, [])
  | fuel + 1, st =>
    if st.low ≤ st.high then
      let quality := Int.fdiv (st.low + st.high) 2
      match enc quality with
      | .ok outputBuffer =>
        if sizeKB outputBuffer ≤ (targetSizeKB : ℚ) * 1.05 then
          let st1 : LoopState :=
            { st with lastValidBuffer := some outputBuffer,
                      lastSize := some (sizeKB outputBuffer) }
          if sizeKB outputBuffer ≥ (targetSizeKB : ℚ) * 0.95 then
            (some outputBuffer, st1, [⟨.search, quality, .ok outputBuffer⟩])
          else
            consTrace ⟨.search, quality, .ok outputBuffer⟩
              (searchLoop enc targetSizeKB fuel { st1 with low := quality + 1 })
        else
          consTrace ⟨.search, quality, .ok outputBuffer⟩
            (searchLoop enc targetSizeKB fuel { st with high := quality - 1 })
      | .error e =>
        consTrace ⟨.search, quality, .error e⟩
          (searchLoop enc targetSizeKB fuel { st with high := quality - 1 })
    else (none, st, [])

/-- The adjusted search ceiling (route.ts:28-39): `high` starts at
`maxQuality` and is lowered for small targets. -/
def initialHigh (targetSizeKB maxQuality : Int) : Int :=
  if targetSizeKB < 500 then min 60 maxQuality
  else if targetSizeKB < 1000 then min 80 maxQuality
  else maxQuality

/-- Everything of `compressToTargetSize` after the initial probe
(route.ts:55-104): the while loop, the best-candidate return, the
last-resort attempt at `minQuality` with `lastResort = true`, and the final
`throw`.  `enc quality lastResort` abstracts
`getOutputBuffer(sharpInstance, format, quality, lastResort)`;
`lastSize0` is the value of `lastSize` after the initial probe. -/
def searchPhase (enc : Int → Bool → Except Unit Buffer)
    (targetSizeKB minQuality high maxAttempts : Int) (lastSize0 : Option ℚ) :
    Except CompressError Buffer × List Probe :=
  let L := searchLoop (fun q => enc q false) targetSizeKB maxAttempts.toNat
    ⟨minQuality, high, none, lastSize0⟩
  match L.1 with
  | some buf => (.ok buf, L.2.2)
  | none =>
    match L.2.1.lastValidBuffer with
    | some buf => (.ok buf, L.2.2)
    | none =>
      match enc minQuality true with
      | .ok lastResortBuffer =>
        if sizeKB lastResortBuffer ≤ (targetSizeKB : ℚ) * 1.2 then
          (.ok lastResortBuffer, L.2.2 ++ [⟨.lastResort, minQuality, .ok lastResortBuffer⟩])
        else
          (.error ⟨targetSizeKB, L.2.1.lastSize⟩,
           L.2.2 ++ [⟨.lastResort, minQuality, .ok lastResortBuffer⟩])
      | .error e =>
        (.error ⟨targetSizeKB, L.2.1.lastSize⟩,
         L.2.2 ++ [⟨.lastResort, minQuality, .error e⟩])

/-- `compressToTargetSize` (route.ts:19-104), over an abstract attempt
encoder `enc quality lastResort`.  The result is paired with the trace of
all encode attempts.  The initial probe at the (adjusted) ceiling returns
immediately when its size is already `≤ targetSizeKB`; a failure of the
initial probe is caught and leaves `lastSize` at `Infinity` (`none`). -/
def compressToTargetSize (enc : Int → Bool → Except Unit Buffer)
    (targetSizeKB minQuality maxQuality maxAttempts : Int) :
    Except CompressError Buffer × List Probe :=
  let high := initialHigh targetSizeKB maxQuality
  match enc high false with
  | .ok initialBuffer =>
    if sizeKB initialBuffer ≤ (targetSizeKB : ℚ) then
      (.ok initialBuffer, [⟨.initial, high, .ok initialBuffer⟩])
    else
      let R := searchPhase enc targetSizeKB minQuality high maxAttempts
        (some (sizeKB initialBuffer))
      (R.1, ⟨.initial, high, .ok initialBuffer⟩ :: R.2)
  | .error e =>
    let R := searchPhase enc targetSizeKB minQuality high maxAttempts none
    (R.1, ⟨.initial, high, .error e⟩ :: R.2)

/-- The abstract sharp / heic-convert primitives.  `B` is the type of raw
input bytes, `Img` the type of sharp pipeline values. -/
structure Env (B : Type) (Img : Type) where
  /-- `getImageDimensions` (route.ts:6-17): metadata width/height; a failed
  metadata call returns `{}`, i.e. `(none, none)`. -/
  dims : Img → Option Nat × Option Nat
  /-- `instance.resize({width, height, fit: 'inside'})` (route.ts:190-194). -/
  resize : Img → Nat → Nat → Img
  /-- `.jpeg({quality, mozjpeg, ...}).toBuffer()` (route.ts:200-211); the
  remaining options are functions of `quality` alone. -/
  jpeg : Img → Int → Except Unit Buffer
  /-- `.png({quality, ...}).toBuffer()` (route.ts:214-222). -/
  png : Img → Int → Except Unit Buffer
  /-- `.webp({quality, effort: 6, ...}).toBuffer()` (route.ts:116-123). -/
  webp : Img → Int → Except Unit Buffer
  /-- `sharp(jpegBuffer).webp({quality, ...}).toBuffer()` (route.ts:143-150):
  re-encode an intermediate JPEG buffer to WebP. -/
  webpOfBuf : Buffer → Int → Except Unit Buffer
  /-- `heicConvert({buffer, format: 'JPEG', quality: 1})` (route.ts:255-259). -/
  heicConvert : B → Except Unit B
  /-- `sharp(inputBuffer)` (route.ts:266). -/
  sharpOf : B → Img
  /-- The lanczos3 `fit: 'inside'` resize of the POST handler (route.ts:270-276). -/
  resizeFit : Img → Int → Int → Img
  /-- The fixed-quality `.jpeg(...)` encode of the POST handler
  (route.ts:293-303), taking the computed `optimizedQuality` and the raw
  `quality` (which drives the remaining options); `none` models `NaN`. -/
  jpegFixed : Img → Option Int → Option Int → Except Unit Buffer
  /-- The fixed-quality `.png(...)` encode (route.ts:306-314). -/
  pngFixed : Img → Option Int → Option Int → Except Unit Buffer
  /-- The fixed-quality `.webp(...)` encode (route.ts:317-324). -/
  webpFixed : Img → Option Int → Option Int → Except Unit Buffer

variable {B Img : Type}

/-- `Math.round(n * 0.9)` for a pixel dimension (route.ts:191-192). -/
def round09 (n : Nat) : Nat := (9 * n + 5) / 10

/-- The body of the conditional downscale in `getOutputBuffer`
(route.ts:188-195): fetch the dimensions and, when both are truthy, resize
to 90% of them (fit inside). -/
def maybeShrink (env : Env B Img) (img : Img) : Img :=
  match env.dims img with
  | (some w, some h) =>
    if w ≠ 0 ∧ h ≠ 0 then env.resize img (round09 w) (round09 h) else img
  | _ => img

/-- The guard `(targetSizeKB && targetSizeKB < 500) || quality < 30 || lastResort`
(route.ts:187); `targetSizeKB` is `number | null` and `0` is falsy. -/
def shrinkCond (targetSizeKB : Option Int) (quality : Int) (lastResort : Bool) : Bool :=
  (match targetSizeKB with
   | some t => decide (t ≠ 0) && decide (t < 500)
   | none => false) || decide (quality < 30) || lastResort

/-- The cloned, conditionally downscaled working image at the start of
`getOutputBuffer` (route.ts:184-196). -/
def outputPrep (env : Env B Img) (img : Img) (quality : Int) (lastResort : Bool)
    (targetSizeKB : Option Int) : Img :=
  if shrinkCond targetSizeKB quality lastResort then maybeShrink env img else img

/-- The `'jpg'` attempt encoder that `optimizeWebP`'s inner
`compressToTargetSize(instance, 'jpg', ...)` call ends up using: each
attempt is `getOutputBuffer(instance, 'jpg', quality[, lastResort])`, i.e. the
clone-shrink-encode of route.ts:177-211 with `targetSizeKB = null`.
(Defined before `getOutputBuffer` to stratify the bounded recursion
`getOutputBuffer → optimizeWebP → compressToTargetSize → getOutputBuffer('jpg')`;
it agrees with `searchEnc env img "jpg"` definitionally.) -/
def searchEncJpg (env : Env B Img) (img : Img) : Int → Bool → Except Unit Buffer :=
  fun quality lastResort => env.jpeg (outputPrep env img quality lastResort none) quality

/-- `optimizeWebP` (route.ts:107-175).  With a falsy `targetSizeKB` (null or
0) it is a direct WebP encode; otherwise it first runs the JPEG target-size
search (quality capped at 95, 10 attempts), re-encodes the intermediate to
WebP at `min(quality, 90)`, and, if still above target, re-encodes once at a
proportionally reduced quality. -/
def optimizeWebP (env : Env B Img) (img : Img) (quality : Int)
    (targetSizeKB : Option Int) : Except Unit Buffer :=
  match targetSizeKB with
  | none => env.webp img quality
  | some t =>
    if t = 0 then env.webp img quality
    else
      match (compressToTargetSize (searchEncJpg env img) t 1 95 10).1 with
      | .error _ => .error ()
      | .ok jpegBuffer =>
        let initialQuality := min quality 90
        match env.webpOfBuf jpegBuffer initialQuality with
        | .error e => .error e
        | .ok webpBuffer =>
          if (webpBuffer : Int) > t * 1024 then
            let currentSize := sizeKB webpBuffer
            let newQuality := max ⌊(initialQuality : ℚ) * ((t : ℚ) / currentSize) * 0.95⌋ 1
            env.webpOfBuf jpegBuffer newQuality
          else .ok webpBuffer

/-- The format switch of `getOutputBuffer` (route.ts:198-229), applied to the
already prepared working image. -/
def encodeSwitch (env : Env B Img) (img : Img) (format : String) (quality : Int)
    (targetSizeKB : Option Int) : Except Unit Buffer :=
  match format with
  | "jpg" => env.jpeg img quality
  | "png" => env.png img quality
  | "webp" => optimizeWebP env img quality targetSizeKB
  | _ => .error ()

/-- `getOutputBuffer` (route.ts:177-230). -/
def getOutputBuffer (env : Env B Img) (img : Img) (format : String) (quality : Int)
    (lastResort : Bool) (targetSizeKB : Option Int) : Except Unit Buffer :=
  encodeSwitch env (outputPrep env img quality lastResort targetSizeKB) format quality
    targetSizeKB

/-- The attempt encoder used by every `compressToTargetSize(sharpInstance,
format, ...)` call: `getOutputBuffer(sharpInstance, format, quality[, lastResort])`
with `targetSizeKB` left at its default `null` (route.ts:43, 59, 93). -/
def searchEnc (env : Env B Img) (img : Img) (format : String) :
    Int → Bool → Except Unit Buffer :=
  fun quality lastResort => getOutputBuffer env img format quality lastResort none

/-- A `File` form value: its name, its `size` property, and its bytes. -/
structure FileData (B : Type) where
  name : String
  size : Nat
  bytes : B
  deriving DecidableEq

/-- A parsed POST /api/convert request (route.ts:234-240).  The numeric
fields hold the result of `parseInt` on the form value; `none` models `NaN`
(missing or non-numeric). -/
structure Request (B : Type) where
  file : Option (FileData B)
  format : Option String
  quality : Option Int
  width : Option Int
  height : Option Int
  targetFileSize : Option Int

/-- A response of the POST handler: a JSON error with a status code, or the
converted image. -/
inductive Response
  | json (status : Nat) (error : String)
  | image (format : String) (buffer : Buffer)
  deriving DecidableEq

/-- JavaScript truthiness of a number (`0` and `NaN` are falsy). -/
def numTruthy : Option Int → Bool
  | some n => decide (n ≠ 0)
  | none => false

/-- JavaScript truthiness of a possibly-missing string (`""` is falsy). -/
def strTruthy : Option String → Bool
  | some s => decide (s ≠ "")
  | none => false

/-- ASCII-folded lowercase characters of a string (the observable part of
`name.toLowerCase()` for the `.heic`/`.heif` suffix test). -/
def lowerChars (s : String) : List Char := s.data.map Char.toLower

/-- `file.name.toLowerCase().endsWith('.heic') || ...endsWith('.heif')`
(route.ts:253). -/
def heicName (name : String) : Bool :=
  ".heic".data.isSuffixOf (lowerChars name) || ".heif".data.isSuffixOf (lowerChars name)

/-- `Math.round` (round half towards positive infinity), on the exact
rational value. -/
def jsRound (x : ℚ) : Int := ⌊x + 1 / 2⌋

/-- The fixed-quality branch of the POST handler (route.ts:288-331):
`optimizedQuality = max(min(round(quality * 0.7), 100), 1)` (`NaN` propagates),
then the per-format encode, with unsupported formats answered by a 400. -/
def fixedQualityEncode (env : Env B Img) (img : Img) (format : String)
    (quality : Option Int) : Except Unit Response :=
  let optimizedQuality := quality.map (fun q => max (min (jsRound ((q : ℚ) * 0.7)) 100) 1)
  match format with
  | "jpg" => (env.jpegFixed img optimizedQuality quality).map (Response.image format)
  | "png" => (env.pngFixed img optimizedQuality quality).map (Response.image format)
  | "webp" => (env.webpFixed img optimizedQuality quality).map (Response.image format)
  | _ => .ok (.json 400 "Unsupported format")

/-- The target-size branch of the POST handler (route.ts:280-286):
`compressToTargetSize(sharpInstance, format, targetFileSize)` with the
default bounds 1/100 and 15 attempts; its `throw` propagates to the
handler's catch. -/
def handleTarget (env : Env B Img) (img : Img) (format : String)
    (targetFileSize : Int) : Except Unit Response :=
  match (compressToTargetSize (searchEnc env img format) targetFileSize 1 100 15).1 with
  | .ok buf => .ok (.image format buf)
  | .error _ => .error ()

/-- Input decoding (route.ts:252-263): `.heic`/`.heif` files go through
`heicConvert` (whose failure propagates to the catch), all other files are
used directly. -/
def decodeInput (env : Env B Img) (file : FileData B) : Except Unit B :=
  if heicName file.name then env.heicConvert file.bytes else .ok file.bytes

/-- The optional resize of the POST handler (route.ts:269-277), applied only
when both dimensions are truthy. -/
def resizeStep (env : Env B Img) (img : Img) (width height : Option Int) : Img :=
  if numTruthy width && numTruthy height then
    env.resizeFit img (width.getD 0) (height.getD 0)
  else img

/-- The branch on `targetFileSize > 0` (route.ts:280-332); `NaN > 0` is false. -/
def dispatch (env : Env B Img) (img : Img) (format : String)
    (targetFileSize quality : Option Int) : Except Unit Response :=
  match targetFileSize with
  | some t =>
    if 0 < t then handleTarget env img format t
    else fixedQualityEncode env img format quality
  | none => fixedQualityEncode env img format quality

/-- The body of the POST handler's try block (route.ts:233-340): validation
of `file`/`format`, input decoding, the optional resize, and the dispatch on
`targetFileSize`.  A propagated `.error` is a thrown exception. -/
def POSTinner (env : Env B Img) (req : Request B) : Except Unit Response :=
  match req.file with
  | none => .ok (.json 400 "File and format are required")
  | some file =>
    if strTruthy req.format = false then .ok (.json 400 "File and format are required")
    else
      (decodeInput env file).bind fun inputBuffer =>
        let img := resizeStep env (env.sharpOf inputBuffer) req.width req.height
        dispatch env img (req.format.getD "") req.targetFileSize req.quality

/-- `POST` (route.ts:232-348): the try/catch wrapper answering any thrown
error with a 500 "Failed to convert image". -/
def POST (env : Env B Img) (req : Request B) : Response :=
  match POSTinner env req with
  | .ok r => r
  | .error _ => .json 500 "Failed to convert image"

/-- The client-side conversion settings held by `ImageConverter`
(ImageConverter.tsx:12-18). -/
structure ClientState where
  outputFormat : String
  quality : Int
  width : Int
  height : Int
  targetFileSize : Int

/-- The initial UI state (ImageConverter.tsx:12-18): format `jpg`, quality 80,
no resize, `targetFileSize` 1000. -/
def initialClientState : ClientState := ⟨"jpg", 80, 0, 0, 1000⟩

/-- `ConversionOptions`'s `useTargetSize` checkbox starts unchecked
(ConversionOptions.tsx: `useState(false)`); it only toggles which input is
rendered and is not part of the request. -/
def initialUseTargetSize : Bool := false

/-- The FormData built by `convertFile` (ImageConverter.tsx:44-56): every
field, including `targetFileSize`, is always appended. -/
def convertFileRequest (st : ClientState) (file : FileData B) : Request B :=
  { file := some file
    format := some st.outputFormat
    quality := some st.quality
    width := some st.width
    height := some st.height
    targetFileSize := some st.targetFileSize }

/-- The successful value of an `Except`, if any. -/
def okPart {E A : Type} : Except E A → Option A
  | .ok a => some a
  | .error _ => none

/-- The last element of a list of error messages, or a fallback: the value
left in the `error` state after a sequence of `setError` calls. -/
def lastErr : List String → Option String → Option String
  | [], err => err
  | m :: rest, _ => lastErr rest (some m)

/-- The for-loop of `handleConvert` (ImageConverter.tsx:81-91): files are
processed in order; a success appends its object URL to `converted`, a
failure records `Failed to convert <name>` and continues.  The third
component records which files a conversion was attempted for. -/
def convertLoop (convert : FileData B → Except Unit String) :
    List (FileData B) → List String → Option String →
    List String × Option String × List (FileData B)
  | [], conv, err => (conv, err, [])
  | f :: rest, conv, err =>
    match convert f with
    | .ok url =>
      let r := convertLoop convert rest (conv ++ [url]) err
      (r.1, r.2.1, f :: r.2.2)
    | .error _ =>
      let r := convertLoop convert rest conv (some ("Failed to convert " ++ f.name))
      (r.1, r.2.1, f :: r.2.2)

/-- The outcome of `handleConvert` (ImageConverter.tsx:67-98): an early
return on an empty queue, or the converted URLs, the final error state and
the attempted files. -/
inductive BatchResult (B : Type)
  | emptyError (msg : String)
  | ran (converted : List String) (error : Option String) (attempted : List (FileData B))
  deriving DecidableEq

/-- `handleConvert` (ImageConverter.tsx:67-98). -/
def handleConvert (convert : FileData B → Except Unit String)
    (files : List (FileData B)) : BatchResult B :=
  if files.isEmpty then .emptyError "Please upload at least one image file"
  else
    let r := convertLoop convert files [] none
    .ran r.1 r.2.1 r.2.2

/-- The `maxSize` option of the client drop zone (UploadSection.tsx:38):
50MB; files over it are rejected by the dropzone, before any request
exists. -/
def dropzoneMaxSize : Nat := 50 * 1024 * 1024

/-- An achievable encoding exists: some quality in the requested range
encodes (without the last-resort shrink) to within the 1.05·target
acceptance bound. -/
def achievable (enc : Int → Bool → Except Unit Buffer) (minQ maxQ t : Int) : Prop :=
  ∃ q b, minQ ≤ q ∧ q ≤ maxQ ∧ enc q false = .ok b ∧ sizeKB b ≤ (t : ℚ) * 1.05

/-- A probe size lies in the ±5% acceptance band around the target. -/
def inBand (t : Int) (b : Buffer) : Prop :=
  (t : ℚ) * 0.95 ≤ sizeKB b ∧ sizeKB b ≤ (t : ℚ) * 1.05

/-- Whether a recorded attempt produced an acceptable (`≤ 1.05·target`)
candidate. -/
def acceptableProbe (t : Int) (p : Probe) : Bool :=
  match p.outcome with
  | .ok n => decide (sizeKB n ≤ (t : ℚ) * 1.05)
  | .error _ => false

/-- The size of the initial ceiling probe of the search (the value the
`lastSize` local has when the final throw is reached; `none` models
`Infinity`). -/
def initialProbeSize (enc : Int → Bool → Except Unit Buffer) (t maxQ : Int) : Option ℚ :=
  match enc (initialHigh t maxQ) false with
  | .ok b => some (sizeKB b)
  | .error _ => none

/-- Claim C1 as stated: whenever an achievable encoding exists, the returned
size is `≤ 1.05·target`, and if any probed quality produced an in-band size
the returned buffer is in band. -/
def ClaimC1 : Prop :=
  ∀ (enc : Int → Bool → Except Unit Buffer) (t minQ maxQ maxA : Int),
    achievable enc minQ maxQ t →
    (∀ b, (compressToTargetSize enc t minQ maxQ maxA).1 = .ok b →
      sizeKB b ≤ (t : ℚ) * 1.05) ∧
    (∀ p n, p ∈ (compressToTargetSize enc t minQ maxQ maxA).2 →
      p.outcome = .ok n → inBand t n →
      ∃ b, (compressToTargetSize enc t minQ maxQ maxA).1 = .ok b ∧ inBand t b)

/-- Claim C6 as stated (weakened to any 4xx JSON answer): an upload larger
than the 50MB cap is rejected with a 4xx response. -/
def ClaimC6 : Prop :=
  ∀ (B Img : Type) (env : Env B Img) (req : Request B) (file : FileData B),
    req.file = some file → dropzoneMaxSize < file.size →
    ∃ s msg, POST env req = .json s msg ∧ 400 ≤ s ∧ s < 500

/-- Claim C7 as stated (its observable consequence): a failure of the
dedicated HEIC decoder alone does not surface the generic conversion
failure, because the handler falls back to the primary codec library (which
in this model can always open the container). -/
def ClaimC7 : Prop :=
  ∀ (B Img : Type) (env : Env B Img) (req : Request B) (file : FileData B),
    req.file = some file → strTruthy req.format = true → heicName file.name = true →
    env.heicConvert file.bytes = .error () →
    POST env req ≠ .json 500 "Failed to convert image"

/-! ### Concrete environments and requests used by witnesses and counterexamples.

For the `Env Unit Bool` environments, the image type `Bool` records whether
the 90% downscale has been applied (`false` = the original decoded image,
`true` = downscaled); the encoder tables return sizes in whole kilobytes
(`k * 1024` bytes) so the search arithmetic stays exact. -/

/-- A table environment for refuting C1: all probes of a 1000KB-target JPEG
search oversize (original image: 3000KB at the ceiling, 2000KB at quality 50;
downscaled image: always 1150KB), but quality 70 — which the search never
probes — would have produced 1000KB, and the last-resort attempt lands at
1150KB, above the 5% band yet inside the 20% margin. -/
def envC1 : Env Unit Bool :=
  { dims := fun _ => (some 1000, some 1000)
    resize := fun _ _ _ => true
    jpeg := fun shrunk q =>
      .ok (if shrunk then 1177600
           else if q = 70 then 1024000 else if q = 50 then 2048000 else 3072000)
    png := fun _ _ => .error ()
    webp := fun _ _ => .error ()
    webpOfBuf := fun _ _ => .error ()
    heicConvert := fun b => .ok b
    sharpOf := fun _ => false
    resizeFit := fun i _ _ => i
    jpegFixed := fun _ _ _ => .error ()
    pngFixed := fun _ _ _ => .error ()
    webpFixed := fun _ _ _ => .error () }

/-- The attempt encoder of a `jpg` target-size conversion of the original
image under `envC1`. -/
def encC1 : Int → Bool → Except Unit Buffer := searchEnc envC1 false "jpg"

/-- A table environment for refuting C4's error-message clause: every probe
of a 1000KB-target search oversizes (3000KB at the ceiling, 2000KB at
quality 50, 1250KB once downscaled) and the last resort lands at 1250KB,
above the 20% margin, so the search throws. -/
def envC4 : Env Unit Bool :=
  { dims := fun _ => (some 1000, some 1000)
    resize := fun _ _ _ => true
    jpeg := fun shrunk q =>
      .ok (if shrunk then 1280000 else if q = 50 then 2048000 else 3072000)
    png := fun _ _ => .error ()
    webp := fun _ _ => .error ()
    webpOfBuf := fun _ _ => .error ()
    heicConvert := fun b => .ok b
    sharpOf := fun _ => false
    resizeFit := fun i _ _ => i
    jpegFixed := fun _ _ _ => .error ()
    pngFixed := fun _ _ _ => .error ()
    webpFixed := fun _ _ _ => .error () }

/-- The attempt encoder of a `jpg` target-size conversion of the original
image under `envC4`. -/
def encC4 : Int → Bool → Except Unit Buffer := searchEnc envC4 false "jpg"

/-- A table environment exhibiting C3: the original image encodes to 600KB,
the downscaled one to 100KB, at every quality, so an attempt shows whether
the downscale happened. -/
def envC3 : Env Unit Bool :=
  { dims := fun _ => (some 1000, some 1000)
    resize := fun _ _ _ => true
    jpeg := fun shrunk _ => .ok (if shrunk then 102400 else 614400)
    png := fun _ _ => .error ()
    webp := fun _ _ => .error ()
    webpOfBuf := fun _ _ => .error ()
    heicConvert := fun b => .ok b
    sharpOf := fun _ => false
    resizeFit := fun i _ _ => i
    jpegFixed := fun _ _ _ => .error ()
    pngFixed := fun _ _ _ => .error ()
    webpFixed := fun _ _ _ => .error () }

/-- The attempt encoder of a 400KB-target `jpg` conversion under `envC3`. -/
def encC3 : Int → Bool → Except Unit Buffer := searchEnc envC3 false "jpg"

/-- An environment whose JPEG encoder always throws while the direct WebP
encoder produces a 900KB buffer: under the C2 claim a WebP target-size
conversion would have to fail (its JPEG step cannot succeed). -/
def envWebP : Env Unit Unit :=
  { dims := fun _ => (some 1000, some 1000)
    resize := fun i _ _ => i
    jpeg := fun _ _ => .error ()
    png := fun _ _ => .error ()
    webp := fun _ _ => .ok 921600
    webpOfBuf := fun _ _ => .error ()
    heicConvert := fun b => .ok b
    sharpOf := fun _ => ()
    resizeFit := fun i _ _ => i
    jpegFixed := fun _ _ _ => .error ()
    pngFixed := fun _ _ _ => .error ()
    webpFixed := fun _ _ _ => .error () }

/-- A benign environment: JPEG encodes of any image give 500KB, while the
dedicated HEIC decoder always fails. -/
def benignEnv : Env Unit Unit :=
  { dims := fun _ => (some 1000, some 1000)
    resize := fun i _ _ => i
    jpeg := fun _ _ => .ok 512000
    png := fun _ _ => .ok 512000
    webp := fun _ _ => .ok 512000
    webpOfBuf := fun _ _ => .ok 512000
    heicConvert := fun _ => .error ()
    sharpOf := fun _ => ()
    resizeFit := fun i _ _ => i
    jpegFixed := fun _ _ _ => .ok 256000
    pngFixed := fun _ _ _ => .ok 256000
    webpFixed := fun _ _ _ => .ok 256000 }

/-- A 60MB JPEG upload (above the 50MB cap). -/
def fileBig : FileData Unit := ⟨"big.jpg", 62914560, ()⟩

/-- The default-state request for the 60MB upload. -/
def reqBig : Request Unit := convertFileRequest initialClientState fileBig

/-- A HEIC upload. -/
def fileHeic : FileData Unit := ⟨"IMG.heic", 3000000, ()⟩

/-- The default-state request for the HEIC upload. -/
def reqHeic : Request Unit := convertFileRequest initialClientState fileHeic

/-- The same bytes under a non-HEIC name. -/
def filePng : FileData Unit := ⟨"IMG.png", 3000000, ()⟩

/-- The default-state request for the PNG-named upload. -/
def reqPng : Request Unit := convertFileRequest initialClientState filePng

/-- A request selecting WebP output with the default 1000KB target. -/
def reqWebP : Request Unit := convertFileRequest ⟨"webp", 80, 0, 0, 1000⟩ filePng

/-- An attempt encoder for the C1 witness: the ceiling probe gives 2000KB,
every other quality 1000KB (squarely in the 1000KB band). -/
def encW : Int → Bool → Except Unit Buffer :=
  fun q _ => .ok (if q = 100 then 2048000 else 1024000)

/-- A per-iteration encoder that always throws, for the C10 witness. -/
def encFail : Int → Except Unit Buffer := fun _ => .error ()

/-- Three queued files, the middle of which will fail to convert. -/
def files8 : List (FileData Unit) := [⟨"a.jpg", 1, ()⟩, ⟨"b.jpg", 1, ()⟩, ⟨"c.jpg", 1, ()⟩]

/-- A converter that fails exactly on `b.jpg`. -/
def convert8 : FileData Unit → Except Unit String :=
  fun f => if f.name = "b.jpg" then .error () else .ok ("url:" ++ f.name)

/-! ### Step equations for the search loop. -/

theorem searchLoop_zero (enc : Int → Except Unit Buffer) (t : Int) (st : LoopState) :
    searchLoop enc t 0 st = (none, st, []) := rfl

theorem searchLoop_stop (enc : Int → Except Unit Buffer) (t : Int) (n : Nat) (st : LoopState)
    (h : ¬ st.low ≤ st.high) :
    searchLoop enc t (n + 1) st = (none, st, []) := by
  simp [searchLoop, h]

theorem searchLoop_error (enc : Int → Except Unit Buffer) (t : Int) (n : Nat) (st : LoopState)
    (e : Unit) (hlh : st.low ≤ st.high)
    (henc : enc (Int.fdiv (st.low + st.high) 2) = .error e) :
    searchLoop enc t (n + 1) st
      = consTrace ⟨.search, Int.fdiv (st.low + st.high) 2, .error e⟩
          (searchLoop enc t n
            ⟨st.low, Int.fdiv (st.low + st.high) 2 - 1, st.lastValidBuffer, st.lastSize⟩) := by
  simp only [searchLoop, if_pos hlh, henc]

theorem searchLoop_oversize (enc : Int → Except Unit Buffer) (t : Int) (n : Nat)
    (st : LoopState) (buf : Buffer) (hlh : st.low ≤ st.high)
    (henc : enc (Int.fdiv (st.low + st.high) 2) = .ok buf)
    (hsz : ¬ sizeKB buf ≤ (t : ℚ) * 1.05) :
    searchLoop enc t (n + 1) st
      = consTrace ⟨.search, Int.fdiv (st.low + st.high) 2, .ok buf⟩
          (searchLoop enc t n
            ⟨st.low, Int.fdiv (st.low + st.high) 2 - 1, st.lastValidBuffer, st.lastSize⟩) := by
  simp only [searchLoop, if_pos hlh, henc, if_neg hsz]

theorem searchLoop_lowball (enc : Int → Except Unit Buffer) (t : Int) (n : Nat)
    (st : LoopState) (buf : Buffer) (hlh : st.low ≤ st.high)
    (henc : enc (Int.fdiv (st.low + st.high) 2) = .ok buf)
    (hacc : sizeKB buf ≤ (t : ℚ) * 1.05)
    (hlow : ¬ sizeKB buf ≥ (t : ℚ) * 0.95) :
    searchLoop enc t (n + 1) st
      = consTrace ⟨.search, Int.fdiv (st.low + st.high) 2, .ok buf⟩
          (searchLoop enc t n
            ⟨Int.fdiv (st.low + st.high) 2 + 1, st.high, some buf, some (sizeKB buf)⟩) := by
  simp only [searchLoop, if_pos hlh, henc, if_pos hacc, if_neg hlow]

theorem searchLoop_hit (enc : Int → Except Unit Buffer) (t : Int) (n : Nat)
    (st : LoopState) (buf : Buffer) (hlh : st.low ≤ st.high)
    (henc : enc (Int.fdiv (st.low + st.high) 2) = .ok buf)
    (hacc : sizeKB buf ≤ (t : ℚ) * 1.05)
    (hband : sizeKB buf ≥ (t : ℚ) * 0.95) :
    searchLoop enc t (n + 1) st
      = (some buf, ⟨st.low, st.high, some buf, some (sizeKB buf)⟩,
         [⟨.search, Int.fdiv (st.low + st.high) 2, .ok buf⟩]) := by
  simp only [searchLoop, if_pos hlh, henc, if_pos hacc, if_pos hband]

/-! ### Structural lemmas about the search loop. -/

theorem searchLoop_kinds (enc : Int → Except Unit Buffer) (t : Int) :
    ∀ (fuel : Nat) (st : LoopState), ∀ p ∈ (searchLoop enc t fuel st).2.2,
      p.kind = ProbeKind.search := by
  intro fuel
  induction fuel with
  | zero => intro st p hp; rw [searchLoop_zero] at hp; simp at hp
  | succ n ih =>
    intro st p hp
    by_cases hlh : st.low ≤ st.high
    · rcases henc : enc (Int.fdiv (st.low + st.high) 2) with e | buf
      · rw [searchLoop_error enc t n st e hlh henc] at hp
        simp only [consTrace, List.mem_cons] at hp
        rcases hp with rfl | hp
        · rfl
        · exact ih _ p hp
      · by_cases hacc : sizeKB buf ≤ (t : ℚ) * 1.05
        · by_cases hband : sizeKB buf ≥ (t : ℚ) * 0.95
          · rw [searchLoop_hit enc t n st buf hlh henc hacc hband] at hp
            simp only [List.mem_singleton] at hp
            subst hp; rfl
          · rw [searchLoop_lowball enc t n st buf hlh henc hacc hband] at hp
            simp only [consTrace, List.mem_cons] at hp
            rcases hp with rfl | hp
            · rfl
            · exact ih _ p hp
        · rw [searchLoop_oversize enc t n st buf hlh henc hacc] at hp
          simp only [consTrace, List.mem_cons] at hp
          rcases hp with rfl | hp
          · rfl
          · exact ih _ p hp
    · rw [searchLoop_stop enc t n st hlh] at hp; simp at hp

theorem searchLoop_length (enc : Int → Except Unit Buffer) (t : Int) :
    ∀ (fuel : Nat) (st : LoopState), (searchLoop enc t fuel st).2.2.length ≤ fuel := by
  intro fuel
  induction fuel with
  | zero => intro st; rw [searchLoop_zero]; simp
  | succ n ih =>
    intro st
    by_cases hlh : st.low ≤ st.high
    · rcases henc : enc (Int.fdiv (st.low + st.high) 2) with e | buf
      · rw [searchLoop_error enc t n st e hlh henc]
        simpa [consTrace] using Nat.succ_le_succ (ih _)
      · by_cases hacc : sizeKB buf ≤ (t : ℚ) * 1.05
        · by_cases hband : sizeKB buf ≥ (t : ℚ) * 0.95
          · rw [searchLoop_hit enc t n st buf hlh henc hacc hband]
            simp
          · rw [searchLoop_lowball enc t n st buf hlh henc hacc hband]
            simpa [consTrace] using Nat.succ_le_succ (ih _)
        · rw [searchLoop_oversize enc t n st buf hlh henc hacc]
          simpa [consTrace] using Nat.succ_le_succ (ih _)
    · rw [searchLoop_stop enc t n st hlh]; simp

theorem searchLoop_some_inBand (enc : Int → Except Unit Buffer) (t : Int) :
    ∀ (fuel : Nat) (st : LoopState) (b : Buffer),
      (searchLoop enc t fuel st).1 = some b → inBand t b := by
  intro fuel
  induction fuel with
  | zero => intro st b hb; rw [searchLoop_zero] at hb; simp at hb
  | succ n ih =>
    intro st b hb
    by_cases hlh : st.low ≤ st.high
    · rcases henc : enc (Int.fdiv (st.low + st.high) 2) with e | buf
      · rw [searchLoop_error enc t n st e hlh henc] at hb
        exact ih _ b hb
      · by_cases hacc : sizeKB buf ≤ (t : ℚ) * 1.05
        · by_cases hband : sizeKB buf ≥ (t : ℚ) * 0.95
          · rw [searchLoop_hit enc t n st buf hlh henc hacc hband] at hb
            simp only at hb
            cases hb
            exact ⟨hband, hacc⟩
          · rw [searchLoop_lowball enc t n st buf hlh henc hacc hband] at hb
            exact ih _ b hb
        · rw [searchLoop_oversize enc t n st buf hlh henc hacc] at hb
          exact ih _ b hb
    · rw [searchLoop_stop enc t n st hlh] at hb; simp at hb

theorem searchLoop_lastValid (enc : Int → Except Unit Buffer) (t : Int) :
    ∀ (fuel : Nat) (st : LoopState),
      (∀ b0, st.lastValidBuffer = some b0 → sizeKB b0 ≤ (t : ℚ) * 1.05) →
      ∀ b, ((searchLoop enc t fuel st).2.1).lastValidBuffer = some b →
        sizeKB b ≤ (t : ℚ) * 1.05 := by
  intro fuel
  induction fuel with
  | zero => intro st hst b hb; rw [searchLoop_zero] at hb; exact hst b hb
  | succ n ih =>
    intro st hst b hb
    by_cases hlh : st.low ≤ st.high
    · rcases henc : enc (Int.fdiv (st.low + st.high) 2) with e | buf
      · rw [searchLoop_error enc t n st e hlh henc] at hb
        simp only [consTrace] at hb
        exact ih ⟨st.low, Int.fdiv (st.low + st.high) 2 - 1, st.lastValidBuffer, st.lastSize⟩
          (fun b0 h0 => hst b0 h0) b hb
      · by_cases hacc : sizeKB buf ≤ (t : ℚ) * 1.05
        · by_cases hband : sizeKB buf ≥ (t : ℚ) * 0.95
          · rw [searchLoop_hit enc t n st buf hlh henc hacc hband] at hb
            simp only at hb
            cases hb
            exact hacc
          · rw [searchLoop_lowball enc t n st buf hlh henc hacc hband] at hb
            simp only [consTrace] at hb
            refine ih _ ?_ b hb
            intro b0 h0
            simp only at h0
            cases h0
            exact hacc
        · rw [searchLoop_oversize enc t n st buf hlh henc hacc] at hb
          simp only [consTrace] at hb
          exact ih ⟨st.low, Int.fdiv (st.low + st.high) 2 - 1, st.lastValidBuffer, st.lastSize⟩
            (fun b0 h0 => hst b0 h0) b hb
    · rw [searchLoop_stop enc t n st hlh] at hb; exact hst b hb

theorem searchLoop_inBand_probe (enc : Int → Except Unit Buffer) (t : Int) :
    ∀ (fuel : Nat) (st : LoopState) (p : Probe) (m : Buffer),
      p ∈ (searchLoop enc t fuel st).2.2 → p.outcome = .ok m → inBand t m →
      ∃ b, (searchLoop enc t fuel st).1 = some b ∧ inBand t b := by
  intro fuel
  induction fuel with
  | zero => intro st p m hp; rw [searchLoop_zero] at hp ⊢; simp at hp
  | succ n ih =>
    intro st p m hp hout hband'
    by_cases hlh : st.low ≤ st.high
    · rcases henc : enc (Int.fdiv (st.low + st.high) 2) with e | buf
      · rw [searchLoop_error enc t n st e hlh henc] at hp ⊢
        simp only [consTrace, List.mem_cons] at hp
        rcases hp with rfl | hp
        · simp at hout
        · simpa [consTrace] using ih _ p m hp hout hband'
      · by_cases hacc : sizeKB buf ≤ (t : ℚ) * 1.05
        · by_cases hband : sizeKB buf ≥ (t : ℚ) * 0.95
          · rw [searchLoop_hit enc t n st buf hlh henc hacc hband]
            exact ⟨buf, rfl, hband, hacc⟩
          · rw [searchLoop_lowball enc t n st buf hlh henc hacc hband] at hp ⊢
            simp only [consTrace, List.mem_cons] at hp
            rcases hp with rfl | hp
            · simp only at hout
              cases hout
              exact absurd hband'.1 hband
            · simpa [consTrace] using ih _ p m hp hout hband'
        · rw [searchLoop_oversize enc t n st buf hlh henc hacc] at hp ⊢
          simp only [consTrace, List.mem_cons] at hp
          rcases hp with rfl | hp
          · simp only at hout
            cases hout
            exact absurd hband'.2 hacc
          · simpa [consTrace] using ih _ p m hp hout hband'
    · rw [searchLoop_stop enc t n st hlh] at hp; simp at hp

theorem searchLoop_noAcceptable (enc : Int → Except Unit Buffer) (t : Int) :
    ∀ (fuel : Nat) (st : LoopState),
      (∀ p ∈ (searchLoop enc t fuel st).2.2, acceptableProbe t p = false) →
      (searchLoop enc t fuel st).1 = none ∧
      ((searchLoop enc t fuel st).2.1).lastValidBuffer = st.lastValidBuffer ∧
      ((searchLoop enc t fuel st).2.1).lastSize = st.lastSize := by
  intro fuel
  induction fuel with
  | zero => intro st _; rw [searchLoop_zero]; exact ⟨rfl, rfl, rfl⟩
  | succ n ih =>
    intro st hno
    by_cases hlh : st.low ≤ st.high
    · rcases henc : enc (Int.fdiv (st.low + st.high) 2) with e | buf
      · rw [searchLoop_error enc t n st e hlh henc] at hno ⊢
        simp only [consTrace, List.mem_cons] at hno
        have := ih ⟨st.low, Int.fdiv (st.low + st.high) 2 - 1, st.lastValidBuffer, st.lastSize⟩
          (fun p hp => hno p (Or.inr hp))
        simpa [consTrace] using this
      · by_cases hacc : sizeKB buf ≤ (t : ℚ) * 1.05
        · exfalso
          have hmem : (⟨.search, Int.fdiv (st.low + st.high) 2, .ok buf⟩ : Probe)
              ∈ (searchLoop enc t (n + 1) st).2.2 := by
            by_cases hband : sizeKB buf ≥ (t : ℚ) * 0.95
            · rw [searchLoop_hit enc t n st buf hlh henc hacc hband]; simp
            · rw [searchLoop_lowball enc t n st buf hlh henc hacc hband]
              simp [consTrace]
          have := hno _ hmem
          simp [acceptableProbe, hacc] at this
        · rw [searchLoop_oversize enc t n st buf hlh henc hacc] at hno ⊢
          simp only [consTrace, List.mem_cons] at hno
          have := ih ⟨st.low, Int.fdiv (st.low + st.high) 2 - 1, st.lastValidBuffer, st.lastSize⟩
            (fun p hp => hno p (Or.inr hp))
          simpa [consTrace] using this
    · rw [searchLoop_stop enc t n st hlh]; exact ⟨rfl, rfl, rfl⟩

/-! ### Case equations for the phase after the initial probe. -/

theorem searchPhase_of_some (enc : Int → Bool → Except Unit Buffer)
    (t minQ high maxA : Int) (ls0 : Option ℚ) (b : Buffer)
    (h : (searchLoop (fun q => enc q false) t maxA.toNat ⟨minQ, high, none, ls0⟩).1 = some b) :
    searchPhase enc t minQ high maxA ls0
      = (.ok b, (searchLoop (fun q => enc q false) t maxA.toNat ⟨minQ, high, none, ls0⟩).2.2) := by
  simp only [searchPhase, h]

theorem searchPhase_of_lastValid (enc : Int → Bool → Except Unit Buffer)
    (t minQ high maxA : Int) (ls0 : Option ℚ) (b : Buffer)
    (h1 : (searchLoop (fun q => enc q false) t maxA.toNat ⟨minQ, high, none, ls0⟩).1 = none)
    (h2 : ((searchLoop (fun q => enc q false) t maxA.toNat ⟨minQ, high, none, ls0⟩).2.1).lastValidBuffer
          = some b) :
    searchPhase enc t minQ high maxA ls0
      = (.ok b, (searchLoop (fun q => enc q false) t maxA.toNat ⟨minQ, high, none, ls0⟩).2.2) := by
  simp only [searchPhase, h1, h2]

theorem searchPhase_lr_ok (enc : Int → Bool → Except Unit Buffer)
    (t minQ high maxA : Int) (ls0 : Option ℚ) (b : Buffer)
    (h1 : (searchLoop (fun q => enc q false) t maxA.toNat ⟨minQ, high, none, ls0⟩).1 = none)
    (h2 : ((searchLoop (fun q => enc q false) t maxA.toNat ⟨minQ, high, none, ls0⟩).2.1).lastValidBuffer
          = none)
    (henc : enc minQ true = .ok b) (hsz : sizeKB b ≤ (t : ℚ) * 1.2) :
    searchPhase enc t minQ high maxA ls0
      = (.ok b, (searchLoop (fun q => enc q false) t maxA.toNat ⟨minQ, high, none, ls0⟩).2.2
          ++ [⟨.lastResort, minQ, .ok b⟩]) := by
  simp only [searchPhase, h1, h2, henc, if_pos hsz]

theorem searchPhase_lr_over (enc : Int → Bool → Except Unit Buffer)
    (t minQ high maxA : Int) (ls0 : Option ℚ) (b : Buffer)
    (h1 : (searchLoop (fun q => enc q false) t maxA.toNat ⟨minQ, high, none, ls0⟩).1 = none)
    (h2 : ((searchLoop (fun q => enc q false) t maxA.toNat ⟨minQ, high, none, ls0⟩).2.1).lastValidBuffer
          = none)
    (henc : enc minQ true = .ok b) (hsz : ¬ sizeKB b ≤ (t : ℚ) * 1.2) :
    searchPhase enc t minQ high maxA ls0
      = (.error ⟨t, ((searchLoop (fun q => enc q false) t maxA.toNat ⟨minQ, high, none, ls0⟩).2.1).lastSize⟩,
         (searchLoop (fun q => enc q false) t maxA.toNat ⟨minQ, high, none, ls0⟩).2.2
           ++ [⟨.lastResort, minQ, .ok b⟩]) := by
  simp only [searchPhase, h1, h2, henc, if_neg hsz]

theorem searchPhase_lr_err (enc : Int → Bool → Except Unit Buffer)
    (t minQ high maxA : Int) (ls0 : Option ℚ) (e : Unit)
    (h1 : (searchLoop (fun q => enc q false) t maxA.toNat ⟨minQ, high, none, ls0⟩).1 = none)
    (h2 : ((searchLoop (fun q => enc q false) t maxA.toNat ⟨minQ, high, none, ls0⟩).2.1).lastValidBuffer
          = none)
    (henc : enc minQ true = .error e) :
    searchPhase enc t minQ high maxA ls0
      = (.error ⟨t, ((searchLoop (fun q => enc q false) t maxA.toNat ⟨minQ, high, none, ls0⟩).2.1).lastSize⟩,
         (searchLoop (fun q => enc q false) t maxA.toNat ⟨minQ, high, none, ls0⟩).2.2
           ++ [⟨.lastResort, minQ, .error e⟩]) := by
  simp only [searchPhase, h1, h2, henc]

theorem compress_initial_under (enc : Int → Bool → Except Unit Buffer)
    (t minQ maxQ maxA : Int) (buf : Buffer)
    (henc : enc (initialHigh t maxQ) false = .ok buf)
    (h : sizeKB buf ≤ (t : ℚ)) :
    compressToTargetSize enc t minQ maxQ maxA
      = (.ok buf, [⟨.initial, initialHigh t maxQ, .ok buf⟩]) := by
  simp only [compressToTargetSize, henc, if_pos h]

theorem compress_initial_over (enc : Int → Bool → Except Unit Buffer)
    (t minQ maxQ maxA : Int) (buf : Buffer)
    (henc : enc (initialHigh t maxQ) false = .ok buf)
    (h : ¬ sizeKB buf ≤ (t : ℚ)) :
    compressToTargetSize enc t minQ maxQ maxA
      = ((searchPhase enc t minQ (initialHigh t maxQ) maxA (some (sizeKB buf))).1,
         ⟨.initial, initialHigh t maxQ, .ok buf⟩ ::
           (searchPhase enc t minQ (initialHigh t maxQ) maxA (some (sizeKB buf))).2) := by
  simp only [compressToTargetSize, henc, if_neg h]

theorem compress_initial_err (enc : Int → Bool → Except Unit Buffer)
    (t minQ maxQ maxA : Int) (e : Unit)
    (henc : enc (initialHigh t maxQ) false = .error e) :
    compressToTargetSize enc t minQ maxQ maxA
      = ((searchPhase enc t minQ (initialHigh t maxQ) maxA none).1,
         ⟨.initial, initialHigh t maxQ, .error e⟩ ::
           (searchPhase enc t minQ (initialHigh t maxQ) maxA none).2) := by
  simp only [compressToTargetSize, henc]

/-! ### Bounds on what the search can return. -/

theorem searchPhase_ok_bound (enc : Int → Bool → Except Unit Buffer)
    (t minQ high maxA : Int) (ls0 : Option ℚ) (b : Buffer)
    (h : (searchPhase enc t minQ high maxA ls0).1 = .ok b) :
    sizeKB b ≤ (t : ℚ) * 1.2 := by
  rcases h1 : (searchLoop (fun q => enc q false) t maxA.toNat ⟨minQ, high, none, ls0⟩).1 with
    _ | b0
  · rcases h2 : ((searchLoop (fun q => enc q false) t maxA.toNat
        ⟨minQ, high, none, ls0⟩).2.1).lastValidBuffer with _ | b1
    · rcases henc : enc minQ true with e | lb
      · rw [searchPhase_lr_err enc t minQ high maxA ls0 e h1 h2 henc] at h
        simp at h
      · by_cases hsz : sizeKB lb ≤ (t : ℚ) * 1.2
        · rw [searchPhase_lr_ok enc t minQ high maxA ls0 lb h1 h2 henc hsz] at h
          simp only [Except.ok.injEq] at h
          cases h
          exact hsz
        · rw [searchPhase_lr_over enc t minQ high maxA ls0 lb h1 h2 henc hsz] at h
          simp at h
    · rw [searchPhase_of_lastValid enc t minQ high maxA ls0 b1 h1 h2] at h
      simp only [Except.ok.injEq] at h
      cases h
      have hv : sizeKB b ≤ (t : ℚ) * 1.05 :=
        searchLoop_lastValid (fun q => enc q false) t maxA.toNat ⟨minQ, high, none, ls0⟩
          (fun b0 h0 => by simp at h0) b h2
      have h0 := sizeKB_nonneg b
      linarith
  · rw [searchPhase_of_some enc t minQ high maxA ls0 b0 h1] at h
    simp only [Except.ok.injEq] at h
    cases h
    have hband := searchLoop_some_inBand (fun q => enc q false) t maxA.toNat
      ⟨minQ, high, none, ls0⟩ b h1
    have h0 := sizeKB_nonneg b
    have := hband.2
    linarith

theorem searchPhase_inBand_probe (enc : Int → Bool → Except Unit Buffer)
    (t minQ high maxA : Int) (ls0 : Option ℚ) (p : Probe) (m : Buffer)
    (hp : p ∈ (searchPhase enc t minQ high maxA ls0).2)
    (hkind : p.kind = ProbeKind.search)
    (hout : p.outcome = .ok m) (hband : inBand t m) :
    ∃ b, (searchPhase enc t minQ high maxA ls0).1 = .ok b ∧ inBand t b := by
  rcases h1 : (searchLoop (fun q => enc q false) t maxA.toNat ⟨minQ, high, none, ls0⟩).1 with
    _ | b0
  · rcases h2 : ((searchLoop (fun q => enc q false) t maxA.toNat
        ⟨minQ, high, none, ls0⟩).2.1).lastValidBuffer with _ | b1
    · -- the last-resort branch: the probe is either a loop probe (then the
      -- loop would have returned, contradicting `h1`) or the last-resort one
      -- (whose kind is not `search`)
      have htr : ∀ o, p ∈ (searchLoop (fun q => enc q false) t maxA.toNat
          ⟨minQ, high, none, ls0⟩).2.2 ++ [⟨.lastResort, minQ, o⟩] → False := by
        intro o hmem
        rcases List.mem_append.1 hmem with hin | hone
        · obtain ⟨b, hb, -⟩ := searchLoop_inBand_probe (fun q => enc q false) t maxA.toNat
            ⟨minQ, high, none, ls0⟩ p m hin hout hband
          rw [h1] at hb
          cases hb
        · simp only [List.mem_singleton] at hone
          subst hone
          simp at hkind
      exfalso
      rcases henc : enc minQ true with e | lb
      · rw [searchPhase_lr_err enc t minQ high maxA ls0 e h1 h2 henc] at hp
        exact htr _ hp
      · by_cases hsz : sizeKB lb ≤ (t : ℚ) * 1.2
        · rw [searchPhase_lr_ok enc t minQ high maxA ls0 lb h1 h2 henc hsz] at hp
          exact htr _ hp
        · rw [searchPhase_lr_over enc t minQ high maxA ls0 lb h1 h2 henc hsz] at hp
          exact htr _ hp
    · rw [searchPhase_of_lastValid enc t minQ high maxA ls0 b1 h1 h2] at hp
      obtain ⟨b, hb, -⟩ := searchLoop_inBand_probe (fun q => enc q false) t maxA.toNat
        ⟨minQ, high, none, ls0⟩ p m hp hout hband
      rw [h1] at hb
      cases hb
  · rw [searchPhase_of_some enc t minQ high maxA ls0 b0 h1]
    exact ⟨b0, rfl,
      searchLoop_some_inBand (fun q => enc q false) t maxA.toNat ⟨minQ, high, none, ls0⟩ b0 h1⟩

/-- Claim C1 (amended): for every attempt encoder (image/format) and target,
(i) any buffer returned by `compressToTargetSize` has size at most
1.2·target — the 1.05 bound of the original claim holds for every return
path except the last-resort one, which only guarantees the relaxed 1.2
factor — and (ii) if any quality probed during the binary-search loop
produces a size inside the ±5% band, the returned buffer's size lies in
that band (an in-band *initial* ceiling probe is returned only when its
size is ≤ target, so it is excluded; the achievability assumption of the
original claim is not needed). -/
theorem C1_amended (enc : Int → Bool → Except Unit Buffer) (t minQ maxQ maxA : Int) :
    (∀ b, (compressToTargetSize enc t minQ maxQ maxA).1 = .ok b →
      sizeKB b ≤ (t : ℚ) * 1.2) ∧
    (∀ p m, p ∈ (compressToTargetSize enc t minQ maxQ maxA).2 →
      p.kind = ProbeKind.search → p.outcome = .ok m → inBand t m →
      ∃ b, (compressToTargetSize enc t minQ maxQ maxA).1 = .ok b ∧ inBand t b) := by
  rcases hinit : enc (initialHigh t maxQ) false with e | buf
  · rw [compress_initial_err enc t minQ maxQ maxA e hinit]
    constructor
    · intro b hb
      exact searchPhase_ok_bound enc t minQ (initialHigh t maxQ) maxA none b hb
    · intro p m hp hkind hout hband
      simp only [List.mem_cons] at hp
      rcases hp with rfl | hp
      · simp at hkind
      · exact searchPhase_inBand_probe enc t minQ (initialHigh t maxQ) maxA none p m
          hp hkind hout hband
  · by_cases hle : sizeKB buf ≤ (t : ℚ)
    · rw [compress_initial_under enc t minQ maxQ maxA buf hinit hle]
      constructor
      · intro b hb
        simp only [Except.ok.injEq] at hb
        cases hb
        have h0 := sizeKB_nonneg buf
        linarith
      · intro p m hp hkind hout hband
        simp only [List.mem_singleton] at hp
        subst hp
        simp at hkind
    · rw [compress_initial_over enc t minQ maxQ maxA buf hinit hle]
      constructor
      · intro b hb
        exact searchPhase_ok_bound enc t minQ (initialHigh t maxQ) maxA
          (some (sizeKB buf)) b hb
      · intro p m hp hkind hout hband
        simp only [List.mem_cons] at hp
        rcases hp with rfl | hp
        · simp at hkind
        · exact searchPhase_inBand_probe enc t minQ (initialHigh t maxQ) maxA
            (some (sizeKB buf)) p m hp hkind hout hband

/-- The concrete run of the binary-search loop under `envC1`: probes at
qualities 50, 25, 12, 6, 3, 1 all oversize, so the loop ends with no valid
candidate. -/
theorem encC1_loop_run :
    (searchLoop (fun q => encC1 q false) 1000 ((15 : Int).toNat)
      ⟨1, 100, none, some (sizeKB 3072000)⟩).1 = none ∧
    ((searchLoop (fun q => encC1 q false) 1000 ((15 : Int).toNat)
      ⟨1, 100, none, some (sizeKB 3072000)⟩).2.1).lastValidBuffer = none := by
  rw [show ((15 : Int).toNat) = 15 from rfl]
  rw [searchLoop_oversize _ _ _ _ 2048000 (by decide) (by decide) (by norm_num [sizeKB])]
  rw [searchLoop_oversize _ _ _ _ 1177600 (by decide) (by decide) (by norm_num [sizeKB])]
  rw [searchLoop_oversize _ _ _ _ 1177600 (by decide) (by decide) (by norm_num [sizeKB])]
  rw [searchLoop_oversize _ _ _ _ 1177600 (by decide) (by decide) (by norm_num [sizeKB])]
  rw [searchLoop_oversize _ _ _ _ 1177600 (by decide) (by decide) (by norm_num [sizeKB])]
  rw [searchLoop_oversize _ _ _ _ 1177600 (by decide) (by decide) (by norm_num [sizeKB])]
  rw [searchLoop_stop _ _ _ _ (by decide)]
  exact ⟨rfl, rfl⟩

/-- Claim C1 is false as stated: under `envC1` (target 1000KB, `jpg`), an
achievable encoding exists at quality 70 (1000KB ≤ 1.05·target), yet the
search misses it — every probed quality oversizes — and the last-resort
attempt returns a 1150KB buffer, which exceeds 1.05·target = 1050KB. -/
theorem C1_counterexample : ¬ ClaimC1 := by
  intro h
  obtain ⟨h1, -⟩ := h encC1 1000 1 100 15
    ⟨70, 1024000, by decide, by decide, by decide, by norm_num [sizeKB]⟩
  have hres : (compressToTargetSize encC1 1000 1 100 15).1 = .ok 1177600 := by
    rw [compress_initial_over encC1 1000 1 100 15 3072000 (by decide) (by norm_num [sizeKB])]
    rw [searchPhase_lr_ok encC1 1000 1 (initialHigh 1000 100) 15 (some (sizeKB 3072000))
      1177600 encC1_loop_run.1 encC1_loop_run.2 (by decide) (by norm_num [sizeKB])]
  have hbound := h1 1177600 hres
  norm_num [sizeKB] at hbound

/-- Witness for `C1_amended` at a concrete input: under `encW` the probe at
quality 50 lands at exactly 1000KB, inside the band, and the theorem yields
an in-band returned buffer. -/
theorem C1_amended_witness :
    ∃ b, (compressToTargetSize encW 1000 1 100 15).1 = .ok b ∧ inBand 1000 b := by
  have hLrun : searchLoop (fun q => encW q false) 1000 ((15 : Int).toNat)
      ⟨1, 100, none, some (sizeKB 2048000)⟩
      = (some 1024000, ⟨1, 100, some 1024000, some (sizeKB 1024000)⟩,
         [⟨.search, 50, .ok 1024000⟩]) := by
    rw [show ((15 : Int).toNat) = 15 from rfl]
    rw [searchLoop_hit _ _ _ _ 1024000 (by decide) (by decide) (by norm_num [sizeKB])
      (by norm_num [sizeKB])]
    rfl
  have hmem : (⟨.search, 50, .ok 1024000⟩ : Probe)
      ∈ (compressToTargetSize encW 1000 1 100 15).2 := by
    rw [compress_initial_over encW 1000 1 100 15 2048000 (by decide) (by norm_num [sizeKB])]
    rw [show initialHigh 1000 100 = 100 from rfl]
    rw [searchPhase_of_some encW 1000 1 100 15 (some (sizeKB 2048000))
      1024000 (by rw [hLrun])]
    rw [hLrun]
    simp
  exact (C1_amended encW 1000 1 100 15).2 ⟨.search, 50, .ok 1024000⟩ 1024000 hmem rfl rfl
    ⟨by norm_num [sizeKB], by norm_num [sizeKB]⟩

/-- Only the while-loop iterations produce `search`-kind probes, and all of
them survive filtering. -/
theorem searchPhase_filter_search (enc : Int → Bool → Except Unit Buffer)
    (t minQ high maxA : Int) (ls0 : Option ℚ) :
    (searchPhase enc t minQ high maxA ls0).2.filter (fun p => p.kind == ProbeKind.search)
      = (searchLoop (fun q => enc q false) t maxA.toNat ⟨minQ, high, none, ls0⟩).2.2 := by
  have hkinds := searchLoop_kinds (fun q => enc q false) t maxA.toNat ⟨minQ, high, none, ls0⟩
  have hself : (searchLoop (fun q => enc q false) t maxA.toNat
      ⟨minQ, high, none, ls0⟩).2.2.filter (fun p => p.kind == ProbeKind.search)
      = (searchLoop (fun q => enc q false) t maxA.toNat ⟨minQ, high, none, ls0⟩).2.2 :=
    List.filter_eq_self.2 (fun p hp => by simp [hkinds p hp])
  rcases h1 : (searchLoop (fun q => enc q false) t maxA.toNat ⟨minQ, high, none, ls0⟩).1 with
    _ | b0
  · rcases h2 : ((searchLoop (fun q => enc q false) t maxA.toNat
        ⟨minQ, high, none, ls0⟩).2.1).lastValidBuffer with _ | b1
    · rcases henc : enc minQ true with e | lb
      · rw [searchPhase_lr_err enc t minQ high maxA ls0 e h1 h2 henc]
        simp only [List.filter_append, hself]
        simp
      · by_cases hsz : sizeKB lb ≤ (t : ℚ) * 1.2
        · rw [searchPhase_lr_ok enc t minQ high maxA ls0 lb h1 h2 henc hsz]
          simp only [List.filter_append, hself]
          simp
        · rw [searchPhase_lr_over enc t minQ high maxA ls0 lb h1 h2 henc hsz]
          simp only [List.filter_append, hself]
          simp
    · rw [searchPhase_of_lastValid enc t minQ high maxA ls0 b1 h1 h2]
      exact hself
  · rw [searchPhase_of_some enc t minQ high maxA ls0 b0 h1]
    exact hself

/-- The number of encode attempts the binary-search loop performs is bounded
by the attempt budget. -/
theorem compress_search_attempts_le (enc : Int → Bool → Except Unit Buffer)
    (t minQ maxQ maxA : Int) :
    ((compressToTargetSize enc t minQ maxQ maxA).2.filter
        (fun p => p.kind == ProbeKind.search)).length ≤ maxA.toNat := by
  rcases hinit : enc (initialHigh t maxQ) false with e | buf
  · rw [compress_initial_err enc t minQ maxQ maxA e hinit]
    simp only [List.filter_cons]
    simp only [show ((⟨.initial, initialHigh t maxQ, .error e⟩ : Probe).kind
        == ProbeKind.search) = false from rfl, if_neg]
    rw [searchPhase_filter_search]
    exact searchLoop_length _ _ _ _
  · by_cases hle : sizeKB buf ≤ (t : ℚ)
    · rw [compress_initial_under enc t minQ maxQ maxA buf hinit hle]
      simp
    · rw [compress_initial_over enc t minQ maxQ maxA buf hinit hle]
      simp only [List.filter_cons]
      simp only [show ((⟨.initial, initialHigh t maxQ, .ok buf⟩ : Probe).kind
          == ProbeKind.search) = false from rfl, if_neg]
      rw [searchPhase_filter_search]
      exact searchLoop_length _ _ _ _

/-- Claim C9: for every attempt encoder (in particular non-monotonic size
functions) the search terminates — it is a total function of a fuel bounded
by `maxAttempts` — and its binary-search loop performs at most
`maxAttempts` encode attempts; with the default budget, at most 15. -/
theorem C9_attempt_bound (enc : Int → Bool → Except Unit Buffer) (t minQ maxQ maxA : Int) :
    ((compressToTargetSize enc t minQ maxQ maxA).2.filter
        (fun p => p.kind == ProbeKind.search)).length ≤ maxA.toNat ∧
    ((compressToTargetSize enc t minQ maxQ 15).2.filter
        (fun p => p.kind == ProbeKind.search)).length ≤ 15 := by
  refine ⟨compress_search_attempts_le enc t minQ maxQ maxA, ?_⟩
  simpa using compress_search_attempts_le enc t minQ maxQ 15

/-- If the phase after the initial probe fails, the last-resort attempt was
made: the only `lastResort`-kind probe of its trace is the attempt at
`minQuality` with the downscale flag set. -/
theorem searchPhase_error_filter (enc : Int → Bool → Except Unit Buffer)
    (t minQ high maxA : Int) (ls0 : Option ℚ) (err : CompressError)
    (herr : (searchPhase enc t minQ high maxA ls0).1 = .error err) :
    (searchPhase enc t minQ high maxA ls0).2.filter
        (fun p => p.kind == ProbeKind.lastResort)
      = [⟨.lastResort, minQ, enc minQ true⟩] := by
  have hkinds := searchLoop_kinds (fun q => enc q false) t maxA.toNat ⟨minQ, high, none, ls0⟩
  have hnil : (searchLoop (fun q => enc q false) t maxA.toNat
      ⟨minQ, high, none, ls0⟩).2.2.filter (fun p => p.kind == ProbeKind.lastResort)
      = [] := by
    rw [List.filter_eq_nil_iff]
    intro p hp
    simp [hkinds p hp]
  rcases h1 : (searchLoop (fun q => enc q false) t maxA.toNat ⟨minQ, high, none, ls0⟩).1 with
    _ | b0
  · rcases h2 : ((searchLoop (fun q => enc q false) t maxA.toNat
        ⟨minQ, high, none, ls0⟩).2.1).lastValidBuffer with _ | b1
    · rcases henc : enc minQ true with e | lb
      · rw [searchPhase_lr_err enc t minQ high maxA ls0 e h1 h2 henc]
        simp only [List.filter_append, hnil, henc]
        simp
      · by_cases hsz : sizeKB lb ≤ (t : ℚ) * 1.2
        · rw [searchPhase_lr_ok enc t minQ high maxA ls0 lb h1 h2 henc hsz] at herr
          simp at herr
        · rw [searchPhase_lr_over enc t minQ high maxA ls0 lb h1 h2 henc hsz]
          simp only [List.filter_append, hnil, henc]
          simp
    · rw [searchPhase_of_lastValid enc t minQ high maxA ls0 b1 h1 h2] at herr
      simp at herr
  · rw [searchPhase_of_some enc t minQ high maxA ls0 b0 h1] at herr
    simp at herr

/-- Claim C10: (i) an encoder failure at a probed quality is handled exactly
like an over-target result — the ceiling drops to `quality - 1`, the attempt
consumes budget, and the search continues — as the identical step shapes of
the error and over-target iterations show; (ii) a failure of the initial
ceiling probe is swallowed: the search proceeds with `lastSize` still at
`Infinity`; (iii) the search never fails before the best-candidate and
last-resort logic have run: a failing result implies that the single
last-resort attempt is in the trace. -/
theorem C10_error_handling :
    (∀ (enc : Int → Except Unit Buffer) (t : Int) (n : Nat) (st : LoopState) (e : Unit),
      st.low ≤ st.high → enc (Int.fdiv (st.low + st.high) 2) = .error e →
      searchLoop enc t (n + 1) st
        = consTrace ⟨.search, Int.fdiv (st.low + st.high) 2, .error e⟩
            (searchLoop enc t n
              ⟨st.low, Int.fdiv (st.low + st.high) 2 - 1, st.lastValidBuffer, st.lastSize⟩)) ∧
    (∀ (enc : Int → Except Unit Buffer) (t : Int) (n : Nat) (st : LoopState) (buf : Buffer),
      st.low ≤ st.high → enc (Int.fdiv (st.low + st.high) 2) = .ok buf →
      ¬ sizeKB buf ≤ (t : ℚ) * 1.05 →
      searchLoop enc t (n + 1) st
        = consTrace ⟨.search, Int.fdiv (st.low + st.high) 2, .ok buf⟩
            (searchLoop enc t n
              ⟨st.low, Int.fdiv (st.low + st.high) 2 - 1, st.lastValidBuffer, st.lastSize⟩)) ∧
    (∀ (enc : Int → Bool → Except Unit Buffer) (t minQ maxQ maxA : Int) (e : Unit),
      enc (initialHigh t maxQ) false = .error e →
      compressToTargetSize enc t minQ maxQ maxA
        = ((searchPhase enc t minQ (initialHigh t maxQ) maxA none).1,
           ⟨.initial, initialHigh t maxQ, .error e⟩ ::
             (searchPhase enc t minQ (initialHigh t maxQ) maxA none).2)) ∧
    (∀ (enc : Int → Bool → Except Unit Buffer) (t minQ maxQ maxA : Int)
       (err : CompressError),
      (compressToTargetSize enc t minQ maxQ maxA).1 = .error err →
      (compressToTargetSize enc t minQ maxQ maxA).2.filter
          (fun p => p.kind == ProbeKind.lastResort)
        = [⟨.lastResort, minQ, enc minQ true⟩]) := by
  refine ⟨searchLoop_error, searchLoop_oversize, compress_initial_err, ?_⟩
  intro enc t minQ maxQ maxA err herr
  rcases hinit : enc (initialHigh t maxQ) false with e | buf
  · rw [compress_initial_err enc t minQ maxQ maxA e hinit] at herr ⊢
    simp only [List.filter_cons]
    simp only [show ((⟨.initial, initialHigh t maxQ, .error e⟩ : Probe).kind
        == ProbeKind.lastResort) = false from rfl, if_neg]
    exact searchPhase_error_filter enc t minQ (initialHigh t maxQ) maxA none err herr
  · by_cases hle : sizeKB buf ≤ (t : ℚ)
    · rw [compress_initial_under enc t minQ maxQ maxA buf hinit hle] at herr
      simp at herr
    · rw [compress_initial_over enc t minQ maxQ maxA buf hinit hle] at herr ⊢
      simp only [List.filter_cons]
      simp only [show ((⟨.initial, initialHigh t maxQ, .ok buf⟩ : Probe).kind
          == ProbeKind.lastResort) = false from rfl, if_neg]
      exact searchPhase_error_filter enc t minQ (initialHigh t maxQ) maxA
        (some (sizeKB buf)) err herr

/-- Witness for `C10_error_handling` at a concrete input: one step of the
loop with an always-failing encoder lowers the ceiling to `49` and records
the failed attempt. -/
theorem C10_witness :
    searchLoop encFail 1000 1 ⟨1, 100, none, none⟩
      = consTrace ⟨.search, Int.fdiv (1 + 100) 2, .error ()⟩
          (searchLoop encFail 1000 0 ⟨1, Int.fdiv (1 + 100) 2 - 1, none, none⟩) :=
  C10_error_handling.1 encFail 1000 0 ⟨1, 100, none, none⟩ () (by decide) (by decide)

/-- Every loop probe also appears in the trace of the surrounding phase. -/
theorem searchPhase_loopTrace_subset (enc : Int → Bool → Except Unit Buffer)
    (t minQ high maxA : Int) (ls0 : Option ℚ) (p : Probe)
    (hp : p ∈ (searchLoop (fun q => enc q false) t maxA.toNat ⟨minQ, high, none, ls0⟩).2.2) :
    p ∈ (searchPhase enc t minQ high maxA ls0).2 := by
  rcases h1 : (searchLoop (fun q => enc q false) t maxA.toNat ⟨minQ, high, none, ls0⟩).1 with
    _ | b0
  · rcases h2 : ((searchLoop (fun q => enc q false) t maxA.toNat
        ⟨minQ, high, none, ls0⟩).2.1).lastValidBuffer with _ | b1
    · rcases henc : enc minQ true with e | lb
      · rw [searchPhase_lr_err enc t minQ high maxA ls0 e h1 h2 henc]
        exact List.mem_append_left _ hp
      · by_cases hsz : sizeKB lb ≤ (t : ℚ) * 1.2
        · rw [searchPhase_lr_ok enc t minQ high maxA ls0 lb h1 h2 henc hsz]
          exact List.mem_append_left _ hp
        · rw [searchPhase_lr_over enc t minQ high maxA ls0 lb h1 h2 henc hsz]
          exact List.mem_append_left _ hp
    · rw [searchPhase_of_lastValid enc t minQ high maxA ls0 b1 h1 h2]
      exact hp
  · rw [searchPhase_of_some enc t minQ high maxA ls0 b0 h1]
    exact hp

/-- When the loop produced no valid candidate, the phase is decided by the
single last-resort attempt: its probe is the only `lastResort`-kind one, a
buffer is returned iff the attempt succeeds within the relaxed 20% margin,
and a failure carries the final `lastSize`. -/
theorem searchPhase_no_valid (enc : Int → Bool → Except Unit Buffer)
    (t minQ high maxA : Int) (ls0 : Option ℚ)
    (h1 : (searchLoop (fun q => enc q false) t maxA.toNat ⟨minQ, high, none, ls0⟩).1 = none)
    (h2 : ((searchLoop (fun q => enc q false) t maxA.toNat
        ⟨minQ, high, none, ls0⟩).2.1).lastValidBuffer = none) :
    ((searchPhase enc t minQ high maxA ls0).2.filter
        (fun p => p.kind == ProbeKind.lastResort)
      = [⟨.lastResort, minQ, enc minQ true⟩]) ∧
    (∀ b, (searchPhase enc t minQ high maxA ls0).1 = .ok b ↔
      (enc minQ true = .ok b ∧ sizeKB b ≤ (t : ℚ) * 1.2)) ∧
    (∀ err, (searchPhase enc t minQ high maxA ls0).1 = .error err →
      err = ⟨t, ((searchLoop (fun q => enc q false) t maxA.toNat
        ⟨minQ, high, none, ls0⟩).2.1).lastSize⟩) := by
  have hkinds := searchLoop_kinds (fun q => enc q false) t maxA.toNat ⟨minQ, high, none, ls0⟩
  have hnil : (searchLoop (fun q => enc q false) t maxA.toNat
      ⟨minQ, high, none, ls0⟩).2.2.filter (fun p => p.kind == ProbeKind.lastResort)
      = [] := by
    rw [List.filter_eq_nil_iff]
    intro p hp
    simp [hkinds p hp]
  rcases henc : enc minQ true with e | lb
  · rw [searchPhase_lr_err enc t minQ high maxA ls0 e h1 h2 henc]
    refine ⟨?_, ?_, ?_⟩
    · simp only [List.filter_append, hnil, henc]
      simp
    · intro b
      simp [henc]
    · intro err he
      simp only [Except.error.injEq] at he
      exact he.symm
  · by_cases hsz : sizeKB lb ≤ (t : ℚ) * 1.2
    · rw [searchPhase_lr_ok enc t minQ high maxA ls0 lb h1 h2 henc hsz]
      refine ⟨?_, ?_, ?_⟩
      · simp only [List.filter_append, hnil, henc]
        simp
      · intro b
        constructor
        · intro hb
          simp only [Except.ok.injEq] at hb
          cases hb
          exact ⟨rfl, hsz⟩
        · intro ⟨hb, _⟩
          simp only [Except.ok.injEq] at hb
          cases hb
          rfl
      · intro err he
        simp at he
    · rw [searchPhase_lr_over enc t minQ high maxA ls0 lb h1 h2 henc hsz]
      refine ⟨?_, ?_, ?_⟩
      · simp only [List.filter_append, hnil, henc]
        simp
      · intro b
        constructor
        · intro hb
          simp at hb
        · intro ⟨hb, hb2⟩
          simp only [Except.ok.injEq] at hb
          cases hb
          exact absurd hb2 hsz
      · intro err he
        simp only [Except.error.injEq] at he
        exact he.symm

/-- Claim C4 (amended): when no attempt of the search produced an acceptable
(`≤ 1.05·target`) candidate, exactly one last-resort attempt is made, at the
minimum quality bound with the `lastResort` flag set — which downscales the
image to 90% of its dimensions before encoding — its result is returned iff
its size is within 120% of the target, and otherwise the search fails with
an error reporting the size of the *initial maximum-quality probe* (the
`lastSize` variable; `Infinity` if that probe failed), which need not be the
smallest size achieved across the attempts. -/
theorem C4_amended {B Img : Type} (env : Env B Img) (img : Img) (fmt : String) (t : Int)
    (ht : 0 < t)
    (hno : ∀ p ∈ (compressToTargetSize (searchEnc env img fmt) t 1 100 15).2,
      p.kind ≠ ProbeKind.lastResort → acceptableProbe t p = false) :
    ((compressToTargetSize (searchEnc env img fmt) t 1 100 15).2.filter
        (fun p => p.kind == ProbeKind.lastResort)
      = [⟨.lastResort, 1, searchEnc env img fmt 1 true⟩]) ∧
    (∀ w h, env.dims img = (some w, some h) → w ≠ 0 → h ≠ 0 →
      searchEnc env img fmt 1 true
        = encodeSwitch env (env.resize img (round09 w) (round09 h)) fmt 1 none) ∧
    (∀ b, (compressToTargetSize (searchEnc env img fmt) t 1 100 15).1 = .ok b ↔
      (searchEnc env img fmt 1 true = .ok b ∧ sizeKB b ≤ (t : ℚ) * 1.2)) ∧
    (∀ err, (compressToTargetSize (searchEnc env img fmt) t 1 100 15).1 = .error err →
      err = ⟨t, initialProbeSize (searchEnc env img fmt) t 100⟩) := by
  set enc := searchEnc env img fmt with hencdef
  have htQ : (0 : ℚ) < (t : ℚ) := by exact_mod_cast ht
  have hshrink : ∀ w h, env.dims img = (some w, some h) → w ≠ 0 → h ≠ 0 →
      enc 1 true = encodeSwitch env (env.resize img (round09 w) (round09 h)) fmt 1 none := by
    intro w h hdims hw hh
    rw [hencdef]
    unfold searchEnc getOutputBuffer outputPrep shrinkCond maybeShrink
    rw [hdims]
    simp [hw, hh]
  -- the structure of the run when no non-last-resort probe is acceptable
  rcases hinit : enc (initialHigh t 100) false with e | buf
  · -- the initial probe failed
    rw [compress_initial_err enc t 1 100 15 e hinit] at hno ⊢
    have hsub : ∀ p ∈ (searchLoop (fun q => enc q false) t (15 : Int).toNat
        ⟨1, initialHigh t 100, none, none⟩).2.2, acceptableProbe t p = false := by
      intro p hp
      refine hno p (List.mem_cons_of_mem _
        (searchPhase_loopTrace_subset enc t 1 (initialHigh t 100) 15 none p hp)) ?_
      rw [searchLoop_kinds (fun q => enc q false) t (15 : Int).toNat
        ⟨1, initialHigh t 100, none, none⟩ p hp]
      simp
    obtain ⟨h1, h2, h3⟩ := searchLoop_noAcceptable (fun q => enc q false) t
      (15 : Int).toNat ⟨1, initialHigh t 100, none, none⟩ hsub
    obtain ⟨hf, hiff, herr⟩ := searchPhase_no_valid enc t 1 (initialHigh t 100) 15 none h1 h2
    refine ⟨?_, hshrink, ?_, ?_⟩
    · simp only [List.filter_cons]
      simp only [show ((⟨.initial, initialHigh t 100, .error e⟩ : Probe).kind
          == ProbeKind.lastResort) = false from rfl, if_neg]
      exact hf
    · exact hiff
    · intro err he
      rw [herr err he, h3]
      unfold initialProbeSize
      rw [hinit]
  · -- the initial probe succeeded; it is unacceptable, hence above the target
    have hbad : acceptableProbe t (⟨.initial, initialHigh t 100, .ok buf⟩ : Probe)
        = false → ¬ sizeKB buf ≤ (t : ℚ) * 1.05 := by
      intro hb
      simpa [acceptableProbe] using hb
    by_cases hle : sizeKB buf ≤ (t : ℚ)
    · exfalso
      rw [compress_initial_under enc t 1 100 15 buf hinit hle] at hno
      have := hbad (hno ⟨.initial, initialHigh t 100, .ok buf⟩ (by simp) (by simp))
      apply this
      nlinarith
    · rw [compress_initial_over enc t 1 100 15 buf hinit hle] at hno ⊢
      have hsub : ∀ p ∈ (searchLoop (fun q => enc q false) t (15 : Int).toNat
          ⟨1, initialHigh t 100, none, some (sizeKB buf)⟩).2.2,
          acceptableProbe t p = false := by
        intro p hp
        refine hno p (List.mem_cons_of_mem _
          (searchPhase_loopTrace_subset enc t 1 (initialHigh t 100) 15
            (some (sizeKB buf)) p hp)) ?_
        rw [searchLoop_kinds (fun q => enc q false) t (15 : Int).toNat
          ⟨1, initialHigh t 100, none, some (sizeKB buf)⟩ p hp]
        simp
      obtain ⟨h1, h2, h3⟩ := searchLoop_noAcceptable (fun q => enc q false) t
        (15 : Int).toNat ⟨1, initialHigh t 100, none, some (sizeKB buf)⟩ hsub
      obtain ⟨hf, hiff, herr⟩ := searchPhase_no_valid enc t 1 (initialHigh t 100) 15
        (some (sizeKB buf)) h1 h2
      refine ⟨?_, hshrink, ?_, ?_⟩
      · simp only [List.filter_cons]
        simp only [show ((⟨.initial, initialHigh t 100, .ok buf⟩ : Probe).kind
            == ProbeKind.lastResort) = false from rfl, if_neg]
        exact hf
      · exact hiff
      · intro err he
        rw [herr err he, h3]
        unfold initialProbeSize
        rw [hinit]

/-- The concrete run of the binary-search loop under `envC4`: all six probes
oversize and no valid candidate is recorded. -/
theorem encC4_loop_run :
    searchLoop (fun q => encC4 q false) 1000 ((15 : Int).toNat)
      ⟨1, 100, none, some (sizeKB 3072000)⟩
      = (none, ⟨1, 0, none, some (sizeKB 3072000)⟩,
         [⟨.search, 50, .ok 2048000⟩, ⟨.search, 25, .ok 1280000⟩,
          ⟨.search, 12, .ok 1280000⟩, ⟨.search, 6, .ok 1280000⟩,
          ⟨.search, 3, .ok 1280000⟩, ⟨.search, 1, .ok 1280000⟩]) := by
  rw [show ((15 : Int).toNat) = 15 from rfl]
  rw [searchLoop_oversize _ _ _ _ 2048000 (by decide) (by decide) (by norm_num [sizeKB])]
  rw [searchLoop_oversize _ _ _ _ 1280000 (by decide) (by decide) (by norm_num [sizeKB])]
  rw [searchLoop_oversize _ _ _ _ 1280000 (by decide) (by decide) (by norm_num [sizeKB])]
  rw [searchLoop_oversize _ _ _ _ 1280000 (by decide) (by decide) (by norm_num [sizeKB])]
  rw [searchLoop_oversize _ _ _ _ 1280000 (by decide) (by decide) (by norm_num [sizeKB])]
  rw [searchLoop_oversize _ _ _ _ 1280000 (by decide) (by decide) (by norm_num [sizeKB])]
  rw [searchLoop_stop _ _ _ _ (by decide)]
  rfl

/-- Claim C4 is false as stated in its error-message clause: under `envC4`
(target 1000KB) the search fails, and the error reports 3000KB — the size of
the initial maximum-quality probe — although the attempt at quality 50
achieved 2000KB, so the reported size is not the smallest size actually
achieved across the attempts. -/
theorem C4_counterexample :
    (compressToTargetSize encC4 1000 1 100 15).1 = .error ⟨1000, some 3000⟩ ∧
    (⟨.search, 50, .ok 2048000⟩ : Probe) ∈ (compressToTargetSize encC4 1000 1 100 15).2 ∧
    sizeKB 2048000 < 3000 := by
  have h1 : (searchLoop (fun q => encC4 q false) 1000 ((15 : Int).toNat)
      ⟨1, 100, none, some (sizeKB 3072000)⟩).1 = none := by rw [encC4_loop_run]
  have h2 : ((searchLoop (fun q => encC4 q false) 1000 ((15 : Int).toNat)
      ⟨1, 100, none, some (sizeKB 3072000)⟩).2.1).lastValidBuffer = none := by
    rw [encC4_loop_run]
  refine ⟨?_, ?_, by norm_num [sizeKB]⟩
  · rw [compress_initial_over encC4 1000 1 100 15 3072000 (by decide) (by norm_num [sizeKB])]
    rw [show initialHigh 1000 100 = 100 from rfl]
    rw [searchPhase_lr_over encC4 1000 1 100 15 (some (sizeKB 3072000)) 1280000 h1 h2
      (by decide) (by norm_num [sizeKB])]
    rw [encC4_loop_run]
    norm_num [sizeKB]
  · rw [compress_initial_over encC4 1000 1 100 15 3072000 (by decide) (by norm_num [sizeKB])]
    rw [show initialHigh 1000 100 = 100 from rfl]
    rw [searchPhase_lr_over encC4 1000 1 100 15 (some (sizeKB 3072000)) 1280000 h1 h2
      (by decide) (by norm_num [sizeKB])]
    rw [encC4_loop_run]
    simp

/-- Witness for `C4_amended` at a concrete input: under `envC4` no attempt is
acceptable and the theorem yields the single last-resort attempt at quality 1
with the downscale flag. -/
theorem C4_witness :
    (compressToTargetSize encC4 1000 1 100 15).2.filter
        (fun p => p.kind == ProbeKind.lastResort)
      = [⟨.lastResort, 1, encC4 1 true⟩] := by
  have h1 : (searchLoop (fun q => encC4 q false) 1000 ((15 : Int).toNat)
      ⟨1, 100, none, some (sizeKB 3072000)⟩).1 = none := by rw [encC4_loop_run]
  have h2 : ((searchLoop (fun q => encC4 q false) 1000 ((15 : Int).toNat)
      ⟨1, 100, none, some (sizeKB 3072000)⟩).2.1).lastValidBuffer = none := by
    rw [encC4_loop_run]
  have hno : ∀ p ∈ (compressToTargetSize encC4 1000 1 100 15).2,
      p.kind ≠ ProbeKind.lastResort → acceptableProbe 1000 p = false := by
    rw [compress_initial_over encC4 1000 1 100 15 3072000 (by decide) (by norm_num [sizeKB])]
    rw [show initialHigh 1000 100 = 100 from rfl]
    rw [searchPhase_lr_over encC4 1000 1 100 15 (some (sizeKB 3072000)) 1280000 h1 h2
      (by decide) (by norm_num [sizeKB])]
    rw [encC4_loop_run]
    intro p hp hk
    simp only [List.mem_cons, List.mem_append, List.mem_singleton, List.not_mem_nil,
      or_false] at hp
    rcases hp with rfl | (rfl | rfl | rfl | rfl | rfl | rfl) | rfl
    · simp only [acceptableProbe, decide_eq_false_iff_not]; norm_num [sizeKB]
    · simp only [acceptableProbe, decide_eq_false_iff_not]; norm_num [sizeKB]
    · simp only [acceptableProbe, decide_eq_false_iff_not]; norm_num [sizeKB]
    · simp only [acceptableProbe, decide_eq_false_iff_not]; norm_num [sizeKB]
    · simp only [acceptableProbe, decide_eq_false_iff_not]; norm_num [sizeKB]
    · simp only [acceptableProbe, decide_eq_false_iff_not]; norm_num [sizeKB]
    · simp only [acceptableProbe, decide_eq_false_iff_not]; norm_num [sizeKB]
    · exact absurd rfl hk
  exact (C4_amended envC4 false "jpg" 1000 (by decide) hno).1

/-- Claim C3 fails on the code: `compressToTargetSize` never forwards
`targetSizeKB` to `getOutputBuffer` (route.ts:43, 59, 93 pass at most
`(instance, format, quality, lastResort)`), so the `targetSizeKB < 500`
downscale trigger is dead during the search.  Concretely, with target 400KB
(< 500) under `envC3`, the initial attempt (quality 60) and the first
binary-search attempt (quality 30) both encode the *original* image
(614400 bytes) although the downscaled image would encode to 102400 bytes;
and in general a search attempt at quality 60 encodes the unprepared image
whatever the target is. -/
theorem C3_small_target_shrink_dead :
    (400 : Int) < 500 ∧
    (∀ (B Img : Type) (env : Env B Img) (img : Img) (fmt : String),
      searchEnc env img fmt 60 false = encodeSwitch env img fmt 60 none) ∧
    envC3.jpeg (maybeShrink envC3 false) 60 = .ok 102400 ∧
    (compressToTargetSize encC3 400 1 100 15).2.head?
      = some ⟨.initial, 60, .ok 614400⟩ ∧
    (⟨.search, 30, .ok 614400⟩ : Probe) ∈ (compressToTargetSize encC3 400 1 100 15).2 := by
  refine ⟨by decide, ?_, by decide, ?_, ?_⟩
  · intro B Img env img fmt
    rfl
  · rw [compress_initial_over encC3 400 1 100 15 614400 (by decide) (by norm_num [sizeKB])]
    rfl
  · rw [compress_initial_over encC3 400 1 100 15 614400 (by decide) (by norm_num [sizeKB])]
    refine List.mem_cons_of_mem _ ?_
    rw [show initialHigh 400 100 = 60 from rfl]
    refine searchPhase_loopTrace_subset encC3 400 1 60 15 (some (sizeKB 614400))
      ⟨.search, 30, .ok 614400⟩ ?_
    rw [show ((15 : Int).toNat) = 15 from rfl]
    rw [searchLoop_oversize _ _ _ _ 614400 (by decide) (by decide) (by norm_num [sizeKB])]
    exact List.mem_cons_self _ _

/-- Claim C2 fails on the code: a `webp` target-size request never reaches
`optimizeWebP`'s JPEG-first pipeline, because `compressToTargetSize` calls
`getOutputBuffer` without a `targetSizeKB`, which makes the webp case a
direct encode (conjunct 1); concretely, a POST with format `webp` and target
1000KB succeeds by the plain binary search over direct WebP encodes even
though the JPEG encoder always throws (conjuncts 2-3), whereas under the
claimed pipeline its mandatory JPEG step could never produce an
intermediate. -/
theorem C2_webp_pipeline_dead :
    (∀ (B Img : Type) (env : Env B Img) (img : Img) (q : Int) (lr : Bool),
      getOutputBuffer env img "webp" q lr none
        = env.webp (outputPrep env img q lr none) q) ∧
    envWebP.jpeg = (fun _ _ => Except.error ()) ∧
    POST envWebP reqWebP = .image "webp" 921600 := by
  refine ⟨fun B Img env img q lr => rfl, rfl, ?_⟩
  have hcomp : (compressToTargetSize (searchEnc envWebP () "webp") 1000 1 100 15).1
      = .ok 921600 := by
    rw [compress_initial_under (searchEnc envWebP () "webp") 1000 1 100 15 921600
      (by decide) (by norm_num [sizeKB])]
  have hh : heicName "IMG.png" = false := by decide
  have hs : strTruthy (some "webp") = true := by decide
  have hn : numTruthy (some (0 : Int)) = false := by decide
  simp only [POST, POSTinner, reqWebP, convertFileRequest, filePng, hs, hh, decodeInput,
    Bool.false_eq_true, if_false, if_neg, Except.bind, resizeStep, hn, Bool.and_self,
    dispatch, Option.getD, handleTarget, hcomp]
  norm_num

/-- Claim C6 is false as stated: the POST handler performs no upload-size
validation.  Under `benignEnv`, the 60MB upload `reqBig` is fully converted
and answered with an image, not a 4xx rejection. -/
theorem C6_counterexample : ¬ ClaimC6 := by
  intro h
  have hcomp : (compressToTargetSize (searchEnc benignEnv () "jpg") 1000 1 100 15).1
      = .ok 512000 := by
    rw [compress_initial_under (searchEnc benignEnv () "jpg") 1000 1 100 15 512000
      (by decide) (by norm_num [sizeKB])]
  have hh : heicName "big.jpg" = false := by decide
  have hs : strTruthy (some "jpg") = true := by decide
  have hn : numTruthy (some (0 : Int)) = false := by decide
  have hpost : POST benignEnv reqBig = .image "jpg" 512000 := by
    simp only [POST, POSTinner, reqBig, convertFileRequest, initialClientState, fileBig, hs,
      hh, decodeInput, Bool.false_eq_true, if_false, if_neg, Except.bind, resizeStep, hn,
      Bool.and_self, dispatch, Option.getD, handleTarget, hcomp]
    norm_num
  obtain ⟨s, m, heq, -, -⟩ := h Unit Unit benignEnv reqBig fileBig rfl (by decide)
  rw [hpost] at heq
  exact Response.noConfusion heq

/-- Claim C6 (amended): the uploaded file's `size` never influences the POST
handler — its response is identical for any two sizes of the same upload —
and the 50MB cap exists only as the client dropzone's `maxSize` option,
which rejects oversized files before any request is built. -/
theorem C6_amended {B Img : Type} (env : Env B Img) (fd : FileData B) (sz : Nat)
    (fmt : Option String) (q w h tf : Option Int) :
    dropzoneMaxSize = 50 * 1024 * 1024 ∧
    POST env ⟨some ⟨fd.name, sz, fd.bytes⟩, fmt, q, w, h, tf⟩
      = POST env ⟨some fd, fmt, q, w, h, tf⟩ :=
  ⟨rfl, rfl⟩

/-- Claim C7 (amended): if the dedicated HEIC decoder fails on a
`.heic`/`.heif` upload, the POST handler immediately answers with the
generic 500 "Failed to convert image"; no fallback to the primary codec
library is attempted and no distinguished error is surfaced. -/
theorem C7_amended {B Img : Type} (env : Env B Img) (req : Request B) (file : FileData B)
    (hf : req.file = some file) (hfmt : strTruthy req.format = true)
    (hheic : heicName file.name = true)
    (herr : env.heicConvert file.bytes = .error ()) :
    POST env req = .json 500 "Failed to convert image" := by
  simp [POST, POSTinner, hf, hfmt, decodeInput, hheic, herr, Except.bind]

/-- Claim C7 is false as stated: under `benignEnv` the dedicated HEIC decoder
fails on `IMG.heic` while the codec library handles the very same bytes
perfectly well (renamed to `IMG.png` they convert to an image), yet the
handler answers the generic 500 without any fallback. -/
theorem C7_counterexample :
    ¬ ClaimC7 ∧ POST benignEnv reqPng = .image "jpg" 512000 := by
  constructor
  · intro h
    have hpost : POST benignEnv reqHeic = .json 500 "Failed to convert image" := by
      have hh : heicName "IMG.heic" = true := by decide
      have hs : strTruthy (some "jpg") = true := by decide
      simp [POST, POSTinner, reqHeic, convertFileRequest, initialClientState, fileHeic, hs,
        hh, decodeInput, Except.bind, benignEnv]
    exact h Unit Unit benignEnv reqHeic fileHeic rfl (by decide) (by decide) rfl hpost
  · have hcomp : (compressToTargetSize (searchEnc benignEnv () "jpg") 1000 1 100 15).1
        = .ok 512000 := by
      rw [compress_initial_under (searchEnc benignEnv () "jpg") 1000 1 100 15 512000
        (by decide) (by norm_num [sizeKB])]
    have hh : heicName "IMG.png" = false := by decide
    have hs : strTruthy (some "jpg") = true := by decide
    have hn : numTruthy (some (0 : Int)) = false := by decide
    simp only [POST, POSTinner, reqPng, convertFileRequest, initialClientState, filePng, hs,
      hh, decodeInput, Bool.false_eq_true, if_false, if_neg, Except.bind, resizeStep, hn,
      Bool.and_self, dispatch, Option.getD, handleTarget, hcomp]
    norm_num

/-- Witness for `C7_amended` at a concrete input. -/
theorem C7_witness : POST benignEnv reqHeic = .json 500 "Failed to convert image" :=
  C7_amended benignEnv reqHeic fileHeic rfl (by decide) (by decide) rfl

/-- With a client state whose `targetFileSize` is the default 1000, the POST
body always takes the target-size branch, whatever the other settings. -/
theorem postinner_target {B Img : Type} (env : Env B Img) (file : FileData B)
    (q w h : Int) (fmt : String)
    (hfmt : fmt = "jpg" ∨ fmt = "png" ∨ fmt = "webp") :
    POSTinner env (convertFileRequest ⟨fmt, q, w, h, 1000⟩ file)
      = (decodeInput env file).bind fun inputBuffer =>
          handleTarget env
            (resizeStep env (env.sharpOf inputBuffer) (some w) (some h)) fmt 1000 := by
  have hfm : strTruthy (some fmt) = true := by
    rcases hfmt with rfl | rfl | rfl <;> decide
  simp only [POSTinner, convertFileRequest, hfm, Bool.true_eq_false, if_false, if_neg,
    Option.getD, dispatch]
  simp only [if_pos (show (0 : Int) < 1000 by decide)]

/-- Claim C5: from the client's initial UI state — the `Use Target File
Size` checkbox unchecked and the target value never edited, so
`targetFileSize` keeps its initial 1000 — every request built by
`convertFile` carries `targetFileSize = 1000`; the handler therefore takes
the `targetFileSize > 0` branch into the size-targeted compressor, the
quality setting never drives the encode, and the fixed-quality path is not
taken. -/
theorem C5_default_state_targets {B Img : Type} (env : Env B Img) (file : FileData B)
    (q w h : Int) (fmt : String)
    (hfmt : fmt = "jpg" ∨ fmt = "png" ∨ fmt = "webp") :
    initialUseTargetSize = false ∧
    initialClientState.targetFileSize = 1000 ∧
    (convertFileRequest (⟨fmt, q, w, h, 1000⟩ : ClientState) file).targetFileSize
      = some 1000 ∧
    POSTinner env (convertFileRequest ⟨fmt, q, w, h, 1000⟩ file)
      = ((decodeInput env file).bind fun inputBuffer =>
          handleTarget env
            (resizeStep env (env.sharpOf inputBuffer) (some w) (some h)) fmt 1000) ∧
    (∀ q2 : Int, POST env (convertFileRequest ⟨fmt, q, w, h, 1000⟩ file)
        = POST env (convertFileRequest ⟨fmt, q2, w, h, 1000⟩ file)) := by
  refine ⟨rfl, rfl, rfl, postinner_target env file q w h fmt hfmt, ?_⟩
  intro q2
  unfold POST
  rw [postinner_target env file q w h fmt hfmt, postinner_target env file q2 w h fmt hfmt]

/-- Witness for `C5_default_state_targets` at a concrete input: with the
default 1000KB target, the response does not depend on the quality slider. -/
theorem C5_witness :
    POST benignEnv (convertFileRequest ⟨"jpg", 80, 0, 0, 1000⟩ filePng)
      = POST benignEnv (convertFileRequest ⟨"jpg", 30, 0, 0, 1000⟩ filePng) :=
  (C5_default_state_targets benignEnv filePng 80 0 0 "jpg" (Or.inl rfl)).2.2.2.2 30

/-- The batch loop processes its list in order, collecting exactly the
successful URLs and threading the last failure message through the error
state. -/
theorem convertLoop_spec {B : Type} (convert : FileData B → Except Unit String) :
    ∀ (l : List (FileData B)) (conv : List String) (err : Option String),
      convertLoop convert l conv err
        = (conv ++ l.filterMap (fun f => okPart (convert f)),
           lastErr ((l.filter (fun f => (okPart (convert f)).isNone)).map
             (fun f => "Failed to convert " ++ f.name)) err,
           l) := by
  intro l
  induction l with
  | nil => intro conv err; simp [convertLoop, lastErr]
  | cons f rest ih =>
    intro conv err
    rcases hc : convert f with e | u
    · simp only [convertLoop, hc, ih, List.filterMap_cons, List.filter_cons, okPart,
        Option.isNone_none, if_pos, List.map_cons, lastErr]
    · simp only [convertLoop, hc, ih, List.filterMap_cons, List.filter_cons, okPart,
        Option.isNone_some, Bool.false_eq_true, if_false, if_neg]
      simp

/-- Claim C8: a non-empty batch is processed sequentially in order (the
attempted files are exactly the queued files, in order), a per-file failure
records that file's error without stopping the loop, and the converted list
holds one result handle per successful file (the in-order successes). -/
theorem C8_batch {B : Type} (convert : FileData B → Except Unit String)
    (files : List (FileData B)) (hne : files ≠ []) :
    handleConvert convert files
      = .ran (files.filterMap fun f => okPart (convert f))
          (lastErr ((files.filter fun f => (okPart (convert f)).isNone).map
            fun f => "Failed to convert " ++ f.name) none)
          files := by
  rcases files with _ | ⟨f, fs⟩
  · exact absurd rfl hne
  · simp only [handleConvert, List.isEmpty_cons, Bool.false_eq_true, if_false, if_neg,
      convertLoop_spec]
    simp

/-- Witness for `C8_batch` at a concrete input: a batch of three files whose
middle file fails yields the two success handles, the recorded failure for
`b.jpg`, and all three attempts. -/
theorem C8_witness :
    handleConvert convert8 files8
      = .ran ["url:a.jpg", "url:c.jpg"] (some "Failed to convert b.jpg") files8 := by
  rw [C8_batch convert8 files8 (by decide)]
  decide

end HeicConv
